import Mathlib

/-!
# solar: the command-line entry point

`solar.go` declares four flags with Go's standard `flag` package and its
`main` calls `flag.Parse()`.  What `main` does is therefore what
`flag.Parse` does on the four declared flags, so this development embeds

* the part of `strconv` that the integer flag uses (`ParseUint`, `ParseInt`,
  `underscoreOK`),
* the part of `flag` that `flag.String`, `flag.Int` and `flag.Parse` run
  (`FlagSet.Var`, `FlagSet.parseOne`, `FlagSet.Parse`, the `Set` methods,
  `failf`, `usage`), and
* `solar.go` itself: the four package-level variables and `main`.

The two library packages are embedded as they are in the Go standard library
since Go 1.15 (when the exit status for `-h` and `-help` became 0), on a
platform whose `int` has 64 bits.

A Go `string` is a sequence of bytes; it is modelled as a list of characters,
one character per byte.  A call that returns a value and an error is a pair;
`os.Exit` and a return from `main` are the two ways an `Outcome` ends.

Definitions come first, then lemmas about `strconv` and `flag`, then the
claims about `main`.
-/

namespace Solar

/-- A Go string: a byte sequence, one `Char` per byte. -/
abbrev GoString := List Char

/-- The text of a usage message (never inspected by the program). -/
abbrev Text := String

/-! ## strconv -/

namespace strconv

/-- Go: `strconv.IntSize`, the size in bits of an `int` (64-bit platform). -/
def IntSize : Nat := 64

/-- The `Err` field of a `*strconv.NumError`. -/
inductive NumErr where
  | ErrSyntax
  | ErrRange
  | invalidBase
  | invalidBitSize
  deriving DecidableEq, Repr

/-- Go: `func lower(c byte) byte { return c | ('x' - 'X') }`. -/
def lower (c : Char) : Nat := c.toNat ||| ('x'.toNat - 'X'.toNat)

/-- Wrap-around of `uint64` arithmetic. -/
def wrap64 (n : Nat) : Nat := n % 2 ^ 64

/-- The digit loop of `ParseUint`:
`for _, c := range []byte(s) { ... }` with the running value `n` and the
`underscores` flag.  An early `return v, err` is `Except.error (v, err)`. -/
def parseUintLoop (base : Nat) (base0 : Bool) (cutoff maxVal : Nat) :
    List Char → Nat → Bool → Except (Nat × NumErr) (Nat × Bool)
  | [], n, underscores => .ok (n, underscores)
  | c :: cs, n, underscores =>
    if c = '_' ∧ base0 = true then
      parseUintLoop base base0 cutoff maxVal cs n true
    else
      let digit : Option Nat :=
        if '0'.toNat ≤ c.toNat ∧ c.toNat ≤ '9'.toNat then some (c.toNat - '0'.toNat)
        else if 'a'.toNat ≤ lower c ∧ lower c ≤ 'z'.toNat then some (lower c - 'a'.toNat + 10)
        else none
      match digit with
      | none => .error (0, .ErrSyntax)
      | some d =>
        if d ≥ base % 256 then .error (0, .ErrSyntax)
        else if n ≥ cutoff then .error (maxVal, .ErrRange)
        else
          let n0 := wrap64 (n * base)
          let n1 := wrap64 (n0 + d)
          if n1 < n0 ∨ n1 > maxVal then .error (maxVal, .ErrRange)
          else parseUintLoop base base0 cutoff maxVal cs n1 underscores

/-- The scan of `underscoreOK` over the number proper; `saw` is the kind of the
previous character: `'0'` for a digit or base prefix, `'_'` for an
underscore, `'!'` for anything else, `'^'` at the start. -/
def underscoreScan (hex : Bool) : List Char → Char → Bool
  | [], saw => saw ≠ '_'
  | c :: cs, saw =>
    if ('0'.toNat ≤ c.toNat ∧ c.toNat ≤ '9'.toNat) ∨
        (hex = true ∧ 'a'.toNat ≤ lower c ∧ lower c ≤ 'f'.toNat) then
      underscoreScan hex cs '0'
    else if c = '_' then
      if saw ≠ '0' then false else underscoreScan hex cs '_'
    else if saw = '_' then false
    else underscoreScan hex cs '!'

/-- Go: `strconv.underscoreOK`: whether the underscores in `s0` are allowed:
an underscore must appear only between digits or between a base prefix and
a digit. -/
def underscoreOK (s0 : GoString) : Bool :=
  let s := match s0 with
    | c :: cs => if c = '-' ∨ c = '+' then cs else s0
    | [] => s0
  match s with
  | c0 :: c1 :: rest =>
    if c0 = '0' ∧ (lower c1 = 'b'.toNat ∨ lower c1 = 'o'.toNat ∨ lower c1 = 'x'.toNat) then
      underscoreScan (lower c1 = 'x'.toNat) rest '0'
    else underscoreScan false s '^'
  | _ => underscoreScan false s '^'

/-- Go: `strconv.ParseUint(s, base, bitSize)`; the result is the pair
`(value, err)` that Go returns.  `base` and `bitSize` are never negative at
the call sites embedded here. -/
def ParseUint (s : GoString) (base bitSize : Nat) : Nat × Option NumErr :=
  if s = [] then (0, some .ErrSyntax)
  else
    let base0 : Bool := base = 0
    -- the `switch` on `base`: `none` is the `default:` arm (`baseError`)
    let chosen : Option (Nat × GoString) :=
      if 2 ≤ base ∧ base ≤ 36 then some (base, s)
      else if base = 0 then
        -- Look for octal, hex prefix.
        match s with
        | c0 :: t =>
          if c0 = '0' then
            match t with
            | c1 :: t2 =>
              if s.length ≥ 3 ∧ lower c1 = 'b'.toNat then some (2, t2)
              else if s.length ≥ 3 ∧ lower c1 = 'o'.toNat then some (8, t2)
              else if s.length ≥ 3 ∧ lower c1 = 'x'.toNat then some (16, t2)
              else some (8, t)
            | [] => some (8, t)
          else some (10, s)
        | [] => some (10, s)
      else none
    match chosen with
    | none => (0, some .invalidBase)
    | some (b, digits) =>
      let bits := if bitSize = 0 then IntSize else bitSize
      if bits > 64 then (0, some .invalidBitSize)
      else
        let maxUint64 := 2 ^ 64 - 1
        let cutoff := maxUint64 / b + 1
        let maxVal := wrap64 (wrap64 (2 ^ bits) + 2 ^ 64 - 1)
        match parseUintLoop b base0 cutoff maxVal digits 0 false with
        | .error (v, e) => (v, some e)
        | .ok (n, underscores) =>
          if underscores = true ∧ underscoreOK s = false then (0, some .ErrSyntax)
          else (n, none)

/-- Go: conversion `int64(u)` of a `uint64`. -/
def toInt64 (u : Nat) : Int :=
  if u % 2 ^ 64 < 2 ^ 63 then ((u % 2 ^ 64 : Nat) : Int) else ((u % 2 ^ 64 : Nat) : Int) - 2 ^ 64

/-- Go: unary minus on an `int64` (wraps at the minimum value). -/
def negInt64 (i : Int) : Int :=
  if i = -(2 : Int) ^ 63 then i else -i

/-- Go: `strconv.ParseInt(s, base, bitSize)`; the result is the pair
`(value, err)` that Go returns. -/
def ParseInt (s : GoString) (base bitSize : Nat) : Int × Option NumErr :=
  match s with
  | [] => (0, some .ErrSyntax)
  | c :: cs =>
    let neg : Bool := c = '-'
    let t : GoString := if c = '+' then cs else if c = '-' then cs else s
    match ParseUint t base bitSize with
    | (_, some .ErrSyntax) => (0, some .ErrSyntax)
    | (_, some .invalidBase) => (0, some .invalidBase)
    | (_, some .invalidBitSize) => (0, some .invalidBitSize)
    | (un, _) =>
      let bits := if bitSize = 0 then IntSize else bitSize
      let cutoff := wrap64 (2 ^ (bits - 1))
      if neg = false ∧ un ≥ cutoff then (toInt64 (cutoff - 1), some .ErrRange)
      else if neg = true ∧ un > cutoff then (negInt64 (toInt64 cutoff), some .ErrRange)
      else
        let n := toInt64 un
        (if neg then negInt64 n else n, none)

/-- The byte of the decimal digit `d`. -/
def digitChar (d : Nat) : Char := Char.ofNat ('0'.toNat + d)

/-- The decimal digits of a natural number, most significant first, without
leading zeros (`0` is the single digit `0`); the first argument bounds the
number of digits. -/
def decimalNat : Nat → Nat → GoString
  | 0, _ => []
  | fuel + 1, n =>
    if n < 10 then [digitChar n] else decimalNat fuel (n / 10) ++ [digitChar (n % 10)]

/-- The decimal numeral of an integer, as `strconv.Itoa` writes it: a minus
sign for a negative number, then the digits of its absolute value. -/
def decimal (n : ℤ) : GoString :=
  if n < 0 then '-' :: decimalNat (n.natAbs + 1) n.natAbs
  else decimalNat (n.natAbs + 1) n.natAbs

/-- The bytes an integer literal can be made of: ASCII digits and letters,
the underscore and the two signs. -/
def numeralByte (c : Char) : Bool :=
  (48 ≤ c.toNat ∧ c.toNat ≤ 57) ∨ (65 ≤ c.toNat ∧ c.toNat ≤ 90) ∨
    (97 ≤ c.toNat ∧ c.toNat ≤ 122) ∨ c = '_' ∨ c = '+' ∨ c = '-'

/-- The text without its optional sign, as `ParseInt` passes it on. -/
def unsigned (s : GoString) : GoString :=
  match s with
  | c :: cs => if c = '+' then cs else if c = '-' then cs else s
  | [] => s

/-- A text that is neither a decimal numeral nor a literal with a base
prefix: after its optional sign it does not start with `0`, and it has a byte
that is neither a decimal digit nor an underscore. -/
def notDecimal (s : GoString) : Bool :=
  (unsigned s).head? ≠ some '0' ∧
    (unsigned s).any (fun c => ¬ (48 ≤ c.toNat ∧ c.toNat ≤ 57) ∧ c ≠ '_')

end strconv

/-! ## flag -/

namespace flag

/-- The errors `Value.Set` returns: `errParse` and `errRange` (what
`numError` makes of `strconv.ErrSyntax` and `strconv.ErrRange`), or the
`*strconv.NumError` itself for the other kinds. -/
inductive SetErr where
  | errParse
  | errRange
  | numError (e : strconv.NumErr)
  deriving DecidableEq, Repr

/-- Go: `flag.numError`. -/
def numError (e : strconv.NumErr) : SetErr :=
  if e = .ErrSyntax then .errParse
  else if e = .ErrRange then .errRange
  else .numError e

/-- The dynamic values behind the `flag.Value` interface that `flag.String`
and `flag.Int` create: `*stringValue` and `*intValue`. -/
inductive Value where
  | stringValue (s : GoString)
  | intValue (i : Int)
  deriving DecidableEq, Repr

/-- Go: `(*stringValue).Set` and `(*intValue).Set`.  The result is the value
stored through the receiver and the returned error; `intValue.Set` stores
the number `ParseInt` returned also when it returns an error. -/
def Value.Set : Value → GoString → Value × Option SetErr
  | .stringValue _, val => (.stringValue val, none)
  | .intValue _, s =>
    match strconv.ParseInt s 0 strconv.IntSize with
    | (v, some e) => (.intValue v, some (numError e))
    | (v, none) => (.intValue v, none)

/-- Go: the type assertion `flag.Value.(boolFlag)` followed by `IsBoolFlag()`;
neither `*stringValue` nor `*intValue` has an `IsBoolFlag` method. -/
def Value.isBoolFlag : Value → Bool
  | .stringValue _ => false
  | .intValue _ => false

/-- Go: `flag.Flag` (the `DefValue` text is not needed here). -/
structure Flag where
  Name : GoString
  Usage : Text
  Value : Value
  deriving DecidableEq, Repr

/-- Go: `flag.ErrorHandling`. -/
inductive ErrorHandling where
  | ContinueOnError
  | ExitOnError
  | PanicOnError
  deriving DecidableEq, Repr

/-- The errors of `parseOne`: `ErrHelp`, or the message built by `failf`. -/
inductive Error where
  | ErrHelp
  | badFlagSyntax (s : GoString)
  | notDefined (name : GoString)
  | invalidBooleanValue (value name : GoString) (err : SetErr)
  | invalidBooleanFlag (name : GoString) (err : SetErr)
  | needsArgument (name : GoString)
  | invalidValue (value name : GoString) (err : SetErr)
  deriving DecidableEq, Repr

/-- What is written to `f.Output()`: an error message line, or the usage
text. -/
inductive Written where
  | message (e : Error)
  | usage
  deriving DecidableEq, Repr

/-- Go: `flag.FlagSet`.  `formal` is the map from name to `*Flag`, kept in
insertion order; `actual` maps a name to the same `*Flag` as `formal`, so
only its key set is kept; `output` is what has been written so far.  The
set's `name` (`os.Args[0]`) only appears in the wording of the usage text
and is left out. -/
structure FlagSet where
  parsed : Bool
  actual : List GoString
  formal : List Flag
  args : List GoString
  errorHandling : ErrorHandling
  output : List Written
  deriving DecidableEq, Repr

/-- Go: `flag.NewFlagSet`. -/
def NewFlagSet (errorHandling : ErrorHandling) : FlagSet :=
  { parsed := false, actual := [], formal := [], args := [],
    errorHandling := errorHandling, output := [] }

/-- Go: the map lookup `f.formal[name]`. -/
def FlagSet.lookup (f : FlagSet) (name : GoString) : Option Flag :=
  f.formal.find? (fun fl => fl.Name = name)

/-- The store through the pointer shared by a `*Flag` and the variable that
`flag.String` or `flag.Int` returned: the flag called `name` gets `v`. -/
def FlagSet.store (f : FlagSet) (name : GoString) (v : Value) : FlagSet :=
  { f with formal := f.formal.map (fun fl => if fl.Name = name then { fl with Value := v } else fl) }

/-- Go: `(*FlagSet).Var`; `none` is a panic (a name that begins with `-`,
contains `=`, or is already defined). -/
def FlagSet.Var (f : FlagSet) (value : Value) (name : GoString) (usage : Text) :
    Option FlagSet :=
  if name.head? = some '-' then none
  else if '=' ∈ name then none
  else if (f.lookup name).isSome then none
  else some { f with formal := f.formal ++ [{ Name := name, Usage := usage, Value := value }] }

/-- Go: `(*FlagSet).usage`: calls `f.Usage`, which prints the usage text. -/
def FlagSet.usage (f : FlagSet) : FlagSet :=
  { f with output := f.output ++ [Written.usage] }

/-- Go: `(*FlagSet).failf`: prints the message, prints the usage, and returns
the message as an error. -/
def FlagSet.failf (f : FlagSet) (e : Error) : FlagSet × Bool × Option Error :=
  (FlagSet.usage { f with output := f.output ++ [Written.message e] }, false, some e)

/-- The loop `for i := 1; i < len(name); i++ { if name[i] == '=' ... }` of
`parseOne`, started on `name[1:]` with `i = 1`: the index of the first `=`
that is not the first byte. -/
def scanEquals : List Char → Nat → Option Nat
  | [], _ => none
  | c :: cs, i => if c = '=' then some i else scanEquals cs (i + 1)

/-- The part of `parseOne` that follows the lookup of the flag `fl` called
`name`: the statement `if fv, ok := flag.Value.(boolFlag); ok && ... else ...`
that sets the value, then `f.actual[name] = flag` and `return true, nil`. -/
def FlagSet.setFlag (f1 : FlagSet) (fl : Flag) (name : GoString) (hasValue : Bool)
    (value : GoString) : FlagSet × Bool × Option Error :=
  if fl.Value.isBoolFlag = true then
    -- special case: doesn't need an arg
    if hasValue = true then
      match fl.Value.Set value with
      | (v, some err) => (f1.store name v).failf (.invalidBooleanValue value name err)
      | (v, none) =>
        ({ f1.store name v with actual := (f1.actual.erase name) ++ [name] }, true, none)
    else
      match fl.Value.Set "true".toList with
      | (v, some err) => (f1.store name v).failf (.invalidBooleanFlag name err)
      | (v, none) =>
        ({ f1.store name v with actual := (f1.actual.erase name) ++ [name] }, true, none)
  else
    -- It must have a value, which might be the next argument.
    let next : FlagSet × Bool × GoString :=
      match hasValue, f1.args with
      | false, a :: as => ({ f1 with args := as }, true, a)
      | _, _ => (f1, hasValue, value)
    let f2 := next.1
    let hasValue := next.2.1
    let value := next.2.2
    if hasValue = false then f2.failf (.needsArgument name)
    else
      match fl.Value.Set value with
      | (v, some err) => (f2.store name v).failf (.invalidValue value name err)
      | (v, none) =>
        ({ f2.store name v with actual := (f2.actual.erase name) ++ [name] }, true, none)

/-- The part of `parseOne` from `hasValue := false` on: `name` is the
argument without its minus signs and `f1` the set after `f.args = f.args[1:]`.
The name is cut at the first `=` that is not its first byte, the flag is
looked up, and its value is set. -/
def FlagSet.parseFlag (f1 : FlagSet) (name : GoString) : FlagSet × Bool × Option Error :=
  let split : GoString × Bool × GoString :=
    match scanEquals (name.drop 1) 1 with
    | some i => (name.take i, true, name.drop (i + 1))
    | none => (name, false, [])
  let name := split.1
  let hasValue := split.2.1
  let value := split.2.2
  match f1.lookup name with
  | none =>
    if name = "help".toList ∨ name = "h".toList then (f1.usage, false, some .ErrHelp)
    else f1.failf (.notDefined name)
  | some fl => f1.setFlag fl name hasValue value

/-- Go: `(*FlagSet).parseOne`.  The result is the flag set after the call
and the pair `(seen, err)` that Go returns. -/
def FlagSet.parseOne (f : FlagSet) : FlagSet × Bool × Option Error :=
  match f.args with
  | [] => (f, false, none)
  | s :: rest =>
    if s.length < 2 ∨ s.head? ≠ some '-' then (f, false, none)
    else if s.get? 1 = some '-' ∧ s.length = 2 then
      -- "--" terminates the flags
      ({ f with args := rest }, false, none)
    else
      let numMinuses := if s.get? 1 = some '-' then 2 else 1
      let name := s.drop numMinuses
      if name.length = 0 ∨ name.head? = some '-' ∨ name.head? = some '=' then
        f.failf (.badFlagSyntax s)
      else
        -- it's a flag. does it have an argument?
        FlagSet.parseFlag { f with args := rest } name

/-- What a call of `parseOne` and its parts does to the output, by what it
returns: without an error nothing is written; with `ErrHelp` the usage is
written and no flag is seen; with any other error the error message and the
usage are written and no flag is seen. -/
def FlagSet.WritesByError (f : FlagSet) (r : FlagSet × Bool × Option Error) : Prop :=
  (r.2.2 = none ∧ r.1.output = f.output) ∨
  (r.2.1 = false ∧ r.2.2 = some Error.ErrHelp ∧ r.1.output = f.output ++ [Written.usage]) ∨
  (r.2.1 = false ∧ ∃ err, err ≠ Error.ErrHelp ∧ r.2.2 = some err ∧
    r.1.output = f.output ++ [Written.message err] ++ [Written.usage])

/-- How a call of `Parse` ends: it returns its error value, it calls
`os.Exit(code)`, or it panics.  `outOfFuel` is the bound of the model's loop
being reached; `parseLoop_fuel` shows that `Parse` never reaches it, and
`parseLoop_bound_irrelevant` that the result does not depend on the bound. -/
inductive Ending where
  | returned (err : Option Error)
  | exit (code : Nat)
  | panic (err : Error)
  | outOfFuel
  deriving DecidableEq, Repr

/-- The `for { seen, err := f.parseOne() ... }` loop of `(*FlagSet).Parse`,
with a bound on the number of iterations. -/
def FlagSet.parseLoop : Nat → FlagSet → FlagSet × Ending
  | 0, f => (f, .outOfFuel)
  | fuel + 1, f =>
    match f.parseOne with
    | (f1, true, _) => parseLoop fuel f1
    | (f1, false, none) => (f1, .returned none)
    | (f1, false, some err) =>
      match f1.errorHandling with
      | .ContinueOnError => (f1, .returned (some err))
      | .ExitOnError => if err = .ErrHelp then (f1, .exit 0) else (f1, .exit 2)
      | .PanicOnError => (f1, .panic err)

/-- Go: `(*FlagSet).Parse(arguments)`.  Every iteration but the last removes
at least one argument, so `len(arguments) + 1` iterations are enough. -/
def FlagSet.Parse (f : FlagSet) (arguments : List GoString) : FlagSet × Ending :=
  FlagSet.parseLoop (arguments.length + 1) { f with parsed := true, args := arguments }

/-- The state after `k` consecutive calls of `parseOne` that each reported a
flag as seen (the first `k` iterations of the loop of `Parse`, when each of
them sets a flag); `none` when one of these calls does not see a flag. -/
def FlagSet.parseSeen : Nat → FlagSet → Option FlagSet
  | 0, f => some f
  | k + 1, f =>
    match f.parseOne with
    | (f1, true, _) => parseSeen k f1
    | (_, false, _) => none

/-- Go: `*p` for the `*string` that `flag.String` returned for `name`. -/
def FlagSet.derefString (f : FlagSet) (name : GoString) : Option GoString :=
  match f.lookup name with
  | some fl => match fl.Value with
    | .stringValue s => some s
    | .intValue _ => none
  | none => none

/-- Go: `*p` for the `*int` that `flag.Int` returned for `name`. -/
def FlagSet.derefInt (f : FlagSet) (name : GoString) : Option ℤ :=
  match f.lookup name with
  | some fl => match fl.Value with
    | .intValue i => some i
    | .stringValue _ => none
  | none => none

/-- Go: `flag.String(name, value, usage)` on the set it is given: registers a
`*stringValue` holding `value`. -/
def String (f : FlagSet) (name value : GoString) (usage : Text) : Option FlagSet :=
  f.Var (.stringValue value) name usage

/-- Go: `flag.Int(name, value, usage)` on the set it is given: registers an
`*intValue` holding `value`. -/
def Int (f : FlagSet) (name : GoString) (value : ℤ) (usage : Text) :
    Option FlagSet :=
  f.Var (.intValue value) name usage

end flag

/-! ## solar.go -/

/-- Package initialisation of `solar.go`: `flag.CommandLine`
(`NewFlagSet(os.Args[0], ExitOnError)`) after the initialisers of the four
package-level variables have run, in the order of their declaration.  `none`
would be a panic in `Var`. -/
def CommandLine : Option flag.FlagSet := do
  let f0 := flag.NewFlagSet .ExitOnError
  let f1 ← flag.String f0 "interface".toList []
    "the IP address of the network interface used to bind to (optional)"
  let f2 ← flag.String f1 "system-id".toList [] "PVOutput system ID"
  let f3 ← flag.String f2 "api-key".toList [] "PVOutput API key"
  flag.Int f3 "inverters".toList 1
    "number of inverters to fetch data from. If greater than 1, the data of the multiple inverters will be accumulated or averaged depending on type of data"

/-- Go: `*interfaceIP`. -/
def interfaceIP (f : flag.FlagSet) : Option GoString := f.derefString "interface".toList

/-- Go: `*systemID`. -/
def systemID (f : flag.FlagSet) : Option GoString := f.derefString "system-id".toList

/-- Go: `*apiKey`. -/
def apiKey (f : flag.FlagSet) : Option GoString := f.derefString "api-key".toList

/-- Go: `*inverterCount`. -/
def inverterCount (f : flag.FlagSet) : Option ℤ := f.derefInt "inverters".toList

/-- The four declared flags holding the values `a`, `b`, `c` and `n`: the
shape of `formal` from package initialisation on (`Set` only replaces
values). -/
def declared (a b c : GoString) (n : ℤ) : List flag.Flag :=
  [{ Name := "interface".toList,
     Usage := "the IP address of the network interface used to bind to (optional)",
     Value := flag.Value.stringValue a },
   { Name := "system-id".toList, Usage := "PVOutput system ID",
     Value := flag.Value.stringValue b },
   { Name := "api-key".toList, Usage := "PVOutput API key",
     Value := flag.Value.stringValue c },
   { Name := "inverters".toList,
     Usage := "number of inverters to fetch data from. If greater than 1, the data of the multiple inverters will be accumulated or averaged depending on type of data",
     Value := flag.Value.intValue n }]

/-- How the process ends: `main` returns, `os.Exit(code)` is called, or a
panic is not recovered.  `outOfFuel` stands for the bound of the model's loop
being reached, which `main_terminates` excludes. -/
inductive Termination where
  | mainReturned
  | osExit (code : Nat)
  | panicked
  | outOfFuel
  deriving DecidableEq, Repr

/-- The state of the program when it ends: the flag set that owns the four
variables (with everything written to standard error), and how it ended. -/
structure Outcome where
  flags : flag.FlagSet
  termination : Termination
  deriving DecidableEq, Repr

/-- Go: the package-level `flag.Parse()`: `CommandLine.Parse(os.Args[1:])`,
whose returned error is ignored. -/
def flag.Parse (commandLine : flag.FlagSet) (args : List GoString) : Outcome :=
  match flag.FlagSet.Parse commandLine args with
  | (f, .returned _) => { flags := f, termination := .mainReturned }
  | (f, .exit code) => { flags := f, termination := .osExit code }
  | (f, .panic _) => { flags := f, termination := .panicked }
  | (f, .outOfFuel) => { flags := f, termination := .outOfFuel }

/-- Go: `func main() { flag.Parse() }`, run after package initialisation on
the argument list `args` (`os.Args[1:]`). -/
def main (args : List GoString) : Outcome :=
  match CommandLine with
  | none => { flags := flag.NewFlagSet .ExitOnError, termination := .panicked }
  | some commandLine => flag.Parse commandLine args

/-- The exit status of the process: 0 when `main` returns, the argument of
`os.Exit`, 2 after a panic. -/
def Outcome.exitStatus (o : Outcome) : Option Nat :=
  match o.termination with
  | .mainReturned => some 0
  | .osExit code => some code
  | .panicked => some 2
  | .outOfFuel => none

/-! ## strconv: reading a decimal numeral back -/

namespace strconv

/-- The byte of a decimal digit is `0x30` plus the digit. -/
theorem digitChar_toNat (d : Nat) (h : d < 10) : (digitChar d).toNat = 48 + d := by
  interval_cases d <;> decide

/-- A decimal digit is not an underscore or a sign, and is `0` only for 0. -/
theorem digitChar_ne (d : Nat) (h : d < 10) :
    digitChar d ≠ '_' ∧ digitChar d ≠ '-' ∧ digitChar d ≠ '+' ∧ (digitChar d = '0' → d = 0) := by
  interval_cases d <;> decide

/-- The digit loop run over `xs ++ ys` is the loop over `xs` followed, unless
it returned early, by the loop over `ys`. -/
theorem parseUintLoop_append (b : Nat) (b0 : Bool) (c m : Nat) (xs ys : List Char) (n : Nat)
    (u : Bool) :
    parseUintLoop b b0 c m (xs ++ ys) n u =
      match parseUintLoop b b0 c m xs n u with
      | .ok (n1, u1) => parseUintLoop b b0 c m ys n1 u1
      | .error e => .error e := by
  induction xs generalizing n u with
  | nil => simp [parseUintLoop]
  | cons x xs ih =>
    simp only [List.cons_append, parseUintLoop]
    split
    · exact ih _ _
    · split
      · rfl
      · split
        · rfl
        · split
          · rfl
          · split
            · rfl
            · exact ih _ _

/-- One decimal digit appended to the running value `n`, without overflow. -/
theorem parseUintLoop_digit (d n : Nat) (u : Bool) (hd : d < 10) (hn : n * 10 + d < 2 ^ 64) :
    parseUintLoop 10 true ((2 ^ 64 - 1) / 10 + 1) (2 ^ 64 - 1) [digitChar d] n u =
      .ok (n * 10 + d, u) := by
  have h1 := digitChar_toNat d hd
  have h2 := digitChar_ne d hd
  simp only [parseUintLoop]
  rw [if_neg (by simp [h2.1])]
  simp only [h1]
  have e0 : '0'.toNat = 48 := by decide
  have e9 : '9'.toNat = 57 := by decide
  rw [if_pos (by rw [e0, e9]; omega)]
  have hw1 : wrap64 (n * 10) = n * 10 := by
    unfold wrap64; exact Nat.mod_eq_of_lt (by omega)
  have hw2 : wrap64 (n * 10 + d) = n * 10 + d := by
    unfold wrap64; exact Nat.mod_eq_of_lt hn
  have e3 : 48 + d - 48 = d := by omega
  simp only [e0, e3, hw1, hw2]
  rw [if_neg (by omega), if_neg (by omega), if_neg (by omega)]

/-- The digit loop of `ParseUint` in base 10 reads the decimal digits of `n`
back as `n`. -/
theorem parseUintLoop_decimalNat (fuel n : Nat) (hf : n < fuel) (hn : n < 2 ^ 64) :
    parseUintLoop 10 true ((2 ^ 64 - 1) / 10 + 1) (2 ^ 64 - 1) (decimalNat fuel n) 0 false =
      .ok (n, false) := by
  induction fuel generalizing n with
  | zero => omega
  | succ k ih =>
    unfold decimalNat
    split
    · have := parseUintLoop_digit n 0 false (by omega) (by omega)
      simpa using this
    · rw [parseUintLoop_append, ih (n / 10) (by omega) (by omega)]
      simp only []
      rw [parseUintLoop_digit (n % 10) (n / 10) false (Nat.mod_lt _ (by omega)) (by omega)]
      congr 2
      omega

/-- The numeral of a positive number starts with a digit other than `0`. -/
theorem decimalNat_head (fuel n : Nat) (hf : n < fuel) (hn : 0 < n) :
    ∃ d cs, decimalNat fuel n = digitChar d :: cs ∧ 0 < d ∧ d < 10 := by
  induction fuel generalizing n with
  | zero => omega
  | succ k ih =>
    unfold decimalNat
    split
    · exact ⟨n, [], rfl, hn, by omega⟩
    · obtain ⟨d, cs, h, h0, h10⟩ := ih (n / 10) (by omega) (by omega)
      exact ⟨d, cs ++ [digitChar (n % 10)], by rw [h]; rfl, h0, h10⟩

/-- The numeral of a natural number starts with a digit. -/
theorem decimalNat_cons (n : Nat) :
    ∃ d cs, decimalNat (n + 1) n = digitChar d :: cs ∧ d < 10 := by
  rcases Nat.eq_zero_or_pos n with h0 | hpos
  · subst h0; exact ⟨0, [], rfl, by omega⟩
  · obtain ⟨d, cs, h, _, h10⟩ := decimalNat_head (n + 1) n (by omega) hpos
    exact ⟨d, cs, h, h10⟩

/-- `ParseUint` with base 0 reads the decimal numeral of `n < 2^64` as `n`. -/
theorem ParseUint_decimalNat (n : Nat) (hn : n < 2 ^ 64) :
    ParseUint (decimalNat (n + 1) n) 0 IntSize = (n, none) := by
  rcases Nat.eq_zero_or_pos n with h0 | hpos
  · subst h0; decide
  · obtain ⟨d, cs, h, hd0, hd10⟩ := decimalNat_head (n + 1) n (by omega) hpos
    have hl := parseUintLoop_decimalNat (n + 1) n (by omega) hn
    have hne := digitChar_ne d hd10
    unfold ParseUint
    rw [h] at hl ⊢
    have hz : digitChar d ≠ '0' := fun e => by have := hne.2.2.2 e; omega
    have hc : ((2 : ℕ) ^ 64 - 1) / 10 + 1 = 1844674407370955162 := by norm_num
    have hm : (2 : ℕ) ^ 64 - 1 = 18446744073709551615 := by norm_num
    rw [hc, hm] at hl
    simp [hz, IntSize, hl, wrap64]

/-- Below `2^63` the conversion to `int64` keeps the value. -/
theorem toInt64_of_lt (m : Nat) (h : m < 2 ^ 63) : toInt64 m = (m : ℤ) := by
  unfold toInt64
  rw [Nat.mod_eq_of_lt (by omega), if_pos h]

/-- `int64(1 << 63)` is the minimum `int64`. -/
theorem toInt64_min : toInt64 (2 ^ 63) = -(2 : ℤ) ^ 63 := by decide

/-- `ParseInt` with base 0 and 64 bits reads the decimal numeral of every
`n` with `-2^63 ≤ n < 2^63` back as `n`, without error. -/
theorem ParseInt_decimal (n : ℤ) (hlo : -(2 : ℤ) ^ 63 ≤ n) (hhi : n < (2 : ℤ) ^ 63) :
    ParseInt (decimal n) 0 IntSize = (n, none) := by
  obtain ⟨d, cs, h, hd10⟩ := decimalNat_cons n.natAbs
  have hne := digitChar_ne d hd10
  have hu := ParseUint_decimalNat n.natAbs (by omega)
  have hw : wrap64 (2 ^ 63) = 2 ^ 63 := by decide
  unfold decimal
  split
  · rename_i hneg
    unfold ParseInt
    simp only [decide_True, if_true, hu, ↓reduceIte, show ¬ ('-' = '+') by decide]
    simp only [IntSize, show (64 : ℕ) ≠ 0 by omega, if_false, hw]
    rw [if_neg (by simp), if_neg (by omega)]
    congr 1
    rcases Nat.lt_or_ge n.natAbs (2 ^ 63) with hlt | hge
    · rw [toInt64_of_lt _ hlt]
      unfold negInt64
      rw [if_neg (by omega)]
      omega
    · have hm : n.natAbs = 2 ^ 63 := by omega
      rw [hm, toInt64_min]
      unfold negInt64
      rw [if_pos rfl]
      omega
  · rename_i hnn
    rw [h] at hu ⊢
    unfold ParseInt
    simp only [hne.2.1, hne.2.2.1, decide_False, if_false, hu]
    simp only [IntSize, show (64 : ℕ) ≠ 0 by omega, if_false, hw]
    rw [if_neg (by omega), if_neg (by simp)]
    simp only [Bool.false_eq_true, if_false]
    congr 1
    rw [toInt64_of_lt _ (by omega)]
    omega

/-! ### Texts that `ParseInt` rejects -/

/-- Setting a bit does not make a byte smaller. -/
theorem le_lower (c : Char) : c.toNat ≤ lower c := by
  unfold lower
  apply Nat.le_of_testBit
  intro i hi
  simp [hi]

/-- A byte that `lower` sends into `a`..`z` is an ASCII letter. -/
theorem lower_letter (c : Char) (h1 : 'a'.toNat ≤ lower c) (h2 : lower c ≤ 'z'.toNat) :
    (65 ≤ c.toNat ∧ c.toNat ≤ 90) ∨ (97 ≤ c.toNat ∧ c.toNat ≤ 122) := by
  have hle := le_lower c
  have hz : 'z'.toNat = 122 := by decide
  have hlt : c.toNat < 123 := by omega
  have key : ∀ x < 123, 'a'.toNat ≤ x ||| ('x'.toNat - 'X'.toNat) →
      x ||| ('x'.toNat - 'X'.toNat) ≤ 'z'.toNat → (65 ≤ x ∧ x ≤ 90) ∨ (97 ≤ x ∧ x ≤ 122) := by
    decide
  exact key c.toNat hlt h1 h2

/-- The digit loop returns early on every text with a byte that no integer
literal contains. -/
theorem parseUintLoop_not_numeral (b : Nat) (b0 : Bool) (cut m : Nat) (xs : List Char)
    (n : Nat) (u : Bool) (h : ∃ c ∈ xs, numeralByte c = false) :
    ∃ e, parseUintLoop b b0 cut m xs n u = .error e := by
  induction xs generalizing n u with
  | nil => simp at h
  | cons x xs ih =>
    simp only [parseUintLoop]
    by_cases hx : numeralByte x = false
    · have hx' := hx
      simp only [numeralByte, decide_eq_false_iff_not, not_or] at hx'
      obtain ⟨hd, hU, hL, hu, _, _⟩ := hx'
      rw [if_neg (fun hc => hu hc.1)]
      have e0 : '0'.toNat = 48 := by decide
      have e9 : '9'.toNat = 57 := by decide
      rw [if_neg (by rw [e0, e9]; exact hd)]
      rw [if_neg (fun hc => by
        rcases lower_letter x hc.1 hc.2 with h1 | h1
        · exact hU h1
        · exact hL h1)]
      exact ⟨_, rfl⟩
    · have hrest : ∃ c ∈ xs, numeralByte c = false := by
        obtain ⟨c, hc, hb⟩ := h
        rcases List.mem_cons.mp hc with rfl | hc
        · exact absurd hb hx
        · exact ⟨c, hc, hb⟩
      split
      · exact ih _ _ hrest
      · split
        · exact ⟨_, rfl⟩
        · split
          · exact ⟨_, rfl⟩
          · split
            · exact ⟨_, rfl⟩
            · split
              · exact ⟨_, rfl⟩
              · exact ih _ _ hrest

/-- The bytes of the base prefixes are letters. -/
theorem numeralByte_of_lower (c : Char) (h : lower c = 'b'.toNat ∨ lower c = 'o'.toNat ∨
    lower c = 'x'.toNat) : numeralByte c = true := by
  have hl := lower_letter c (by rcases h with h | h | h <;> rw [h] <;> decide)
    (by rcases h with h | h | h <;> rw [h] <;> decide)
  simp only [numeralByte, decide_eq_true_eq]
  rcases hl with h1 | h1
  · exact Or.inr (Or.inl h1)
  · exact Or.inr (Or.inr (Or.inl h1))

/-- `ParseUint` with base 0 and 64 bits on a text that is not empty: the digit
loop runs in some base over the text without its base prefix, and a byte that
no integer literal contains is still there. -/
theorem ParseUint_eq_loop (s : GoString) (hs : s ≠ []) :
    ∃ (b : Nat) (digits : List Char),
      ((∃ c ∈ s, numeralByte c = false) → ∃ c ∈ digits, numeralByte c = false) ∧
      ParseUint s 0 IntSize =
        match parseUintLoop b true ((2 ^ 64 - 1) / b + 1)
          (wrap64 (wrap64 (2 ^ 64) + 2 ^ 64 - 1)) digits 0 false with
        | .error (v, e) => (v, some e)
        | .ok (n, underscores) =>
          if underscores = true ∧ underscoreOK s = false then (0, some NumErr.ErrSyntax)
          else (n, none) := by
  cases s with
  | nil => exact absurd rfl hs
  | cons c0 t =>
    have ht : c0 = '0' → (∃ c ∈ c0 :: t, numeralByte c = false) →
        ∃ c ∈ t, numeralByte c = false := by
      rintro rfl ⟨c, hc, hb⟩
      rcases List.mem_cons.mp hc with rfl | hc
      · exact absurd hb (by decide)
      · exact ⟨c, hc, hb⟩
    unfold ParseUint
    simp only [reduceCtorEq, if_false, IntSize, show ¬ (2 ≤ 0 ∧ 0 ≤ 36) by omega,
      decide_True, if_true, show ¬ (64 > 64) by omega, show (64 : ℕ) ≠ 0 by omega]
    by_cases h0 : c0 = '0'
    · simp only [h0, if_true]
      cases t with
      | nil => exact ⟨8, [], fun h => ht h0 (h0 ▸ h), rfl⟩
      | cons c1 t2 =>
        have ht2 : (lower c1 = 'b'.toNat ∨ lower c1 = 'o'.toNat ∨ lower c1 = 'x'.toNat) →
            (∃ c ∈ '0' :: c1 :: t2, numeralByte c = false) →
            ∃ c ∈ t2, numeralByte c = false := by
          intro hl h
          obtain ⟨c, hc, hb⟩ := ht h0 (h0 ▸ h)
          rcases List.mem_cons.mp hc with rfl | hc
          · rw [numeralByte_of_lower c hl] at hb; exact absurd hb (by decide)
          · exact ⟨c, hc, hb⟩
        simp only []
        split_ifs with hb ho hx
        · exact ⟨2, t2, ht2 (Or.inl hb.2), rfl⟩
        · exact ⟨8, t2, ht2 (Or.inr (Or.inl ho.2)), rfl⟩
        · exact ⟨16, t2, ht2 (Or.inr (Or.inr hx.2)), rfl⟩
        · exact ⟨8, c1 :: t2, fun h => ht h0 (h0 ▸ h), rfl⟩
    · simp only [h0, if_false]
      exact ⟨10, c0 :: t, fun h => h, rfl⟩

/-- An early return of the digit loop is a syntax error with value 0 or a
range error with value `maxVal`. -/
theorem parseUintLoop_error (b : Nat) (b0 : Bool) (cut m : Nat) (xs : List Char) (n : Nat)
    (u : Bool) (v : Nat) (e : NumErr) (h : parseUintLoop b b0 cut m xs n u = .error (v, e)) :
    (e = NumErr.ErrSyntax ∧ v = 0) ∨ (e = NumErr.ErrRange ∧ v = m) := by
  induction xs generalizing n u with
  | nil => simp [parseUintLoop] at h
  | cons x xs ih =>
    simp only [parseUintLoop] at h
    split at h
    · exact ih _ _ h
    · split at h
      · simp only [Except.error.injEq, Prod.mk.injEq] at h
        exact Or.inl ⟨h.2.symm, h.1.symm⟩
      · split at h
        · simp only [Except.error.injEq, Prod.mk.injEq] at h
          exact Or.inl ⟨h.2.symm, h.1.symm⟩
        · split at h
          · simp only [Except.error.injEq, Prod.mk.injEq] at h
            exact Or.inr ⟨h.2.symm, h.1.symm⟩
          · split at h
            · simp only [Except.error.injEq, Prod.mk.injEq] at h
              exact Or.inr ⟨h.2.symm, h.1.symm⟩
            · exact ih _ _ h

/-- What `ParseUint` with base 0 and 64 bits returns with an error: 0 with a
syntax error, or the maximum `uint64` with a range error. -/
theorem ParseUint_error (s : GoString) (v : Nat) (e : NumErr)
    (h : ParseUint s 0 IntSize = (v, some e)) :
    e = NumErr.ErrSyntax ∨ (e = NumErr.ErrRange ∧ v = 2 ^ 64 - 1) := by
  by_cases hs : s = []
  · subst hs
    simp [ParseUint] at h
    exact Or.inl h.2.symm
  · obtain ⟨b, digits, _, heq⟩ := ParseUint_eq_loop s hs
    rw [heq] at h
    split at h
    · rename_i v1 e1 hl
      simp only [Prod.mk.injEq, Option.some.injEq] at h
      obtain ⟨rfl, rfl⟩ := h
      rcases parseUintLoop_error _ _ _ _ _ _ _ _ _ hl with h1 | h1
      · exact Or.inl h1.1
      · exact Or.inr ⟨h1.1, by rw [h1.2]; decide⟩
    · split at h
      · simp only [Prod.mk.injEq, Option.some.injEq] at h
        exact Or.inl h.2.symm
      · simp at h

/-- An error of `ParseUint` on the text without its sign is an error of
`ParseInt`. -/
theorem ParseInt_of_ParseUint_error (c : Char) (cs : List Char) (v : Nat) (ne : NumErr)
    (heq : ParseUint (if c = '+' then cs else if c = '-' then cs else c :: cs) 0 IntSize =
      (v, some ne)) :
    (ParseInt (c :: cs) 0 IntSize).2 ≠ none := by
  rcases ParseUint_error _ v ne heq with h1 | ⟨h1, h2⟩
  · subst h1
    unfold ParseInt
    simp only [heq]
    simp
  · subst h1 h2
    unfold ParseInt
    simp only [heq]
    have hw : wrap64 (2 ^ (64 - 1)) = 2 ^ 63 := by decide
    simp only [IntSize, show (64 : ℕ) ≠ 0 by omega, if_false, hw]
    by_cases hneg : c = '-'
    · simp [hneg]
    · simp [hneg]

/-- `ParseInt` with base 0 and 64 bits rejects the empty text and every text
with a byte that no integer literal contains. -/
theorem ParseInt_not_numeral (s : GoString)
    (h : s = [] ∨ ∃ c ∈ s, numeralByte c = false) :
    (ParseInt s 0 IntSize).2 ≠ none := by
  rcases h with rfl | h
  · simp [ParseInt]
  · cases s with
    | nil => simp at h
    | cons c cs =>
      have ht : ∃ x ∈ (if c = '+' then cs else if c = '-' then cs else c :: cs),
          numeralByte x = false := by
        obtain ⟨x, hx, hb⟩ := h
        split_ifs with h1 h2
        · rcases List.mem_cons.mp hx with rfl | hx
          · rw [h1] at hb; exact absurd hb (by decide)
          · exact ⟨x, hx, hb⟩
        · rcases List.mem_cons.mp hx with rfl | hx
          · rw [h2] at hb; exact absurd hb (by decide)
          · exact ⟨x, hx, hb⟩
        · exact ⟨x, hx, hb⟩
      have hne : (if c = '+' then cs else if c = '-' then cs else c :: cs) ≠ [] := by
        obtain ⟨x, hx, _⟩ := ht
        exact List.ne_nil_of_mem hx
      obtain ⟨b, digits, hbad, heq⟩ := ParseUint_eq_loop _ hne
      obtain ⟨e, he⟩ := parseUintLoop_not_numeral b true ((2 ^ 64 - 1) / b + 1)
        (wrap64 (wrap64 (2 ^ 64) + 2 ^ 64 - 1)) digits 0 false (hbad ht)
      rw [he] at heq
      simp only at heq
      exact ParseInt_of_ParseUint_error c cs e.1 e.2 heq

/-- In base 10 the digit loop returns early on every text with a byte that is
neither a decimal digit nor an underscore. -/
theorem parseUintLoop_not_decimal (cut m : Nat) (xs : List Char) (n : Nat) (u : Bool)
    (h : ∃ c ∈ xs, ¬ (48 ≤ c.toNat ∧ c.toNat ≤ 57) ∧ c ≠ '_') :
    ∃ e, parseUintLoop 10 true cut m xs n u = .error e := by
  induction xs generalizing n u with
  | nil => simp at h
  | cons x xs ih =>
    simp only [parseUintLoop]
    by_cases hx : ¬ (48 ≤ x.toNat ∧ x.toNat ≤ 57) ∧ x ≠ '_'
    · rw [if_neg (fun hc => hx.2 hc.1)]
      have e0 : '0'.toNat = 48 := by decide
      have e9 : '9'.toNat = 57 := by decide
      have ea : 'a'.toNat = 97 := by decide
      rw [if_neg (by rw [e0, e9]; exact hx.1)]
      split
      · exact ⟨_, rfl⟩
      · rename_i d hd
        split at hd
        · simp only [Option.some.injEq] at hd
          rw [if_pos (by rw [← hd, ea]; omega)]
          exact ⟨_, rfl⟩
        · simp at hd
    · have hrest : ∃ c ∈ xs, ¬ (48 ≤ c.toNat ∧ c.toNat ≤ 57) ∧ c ≠ '_' := by
        obtain ⟨c, hc, hb⟩ := h
        rcases List.mem_cons.mp hc with rfl | hc
        · exact absurd hb hx
        · exact ⟨c, hc, hb⟩
      split
      · exact ih _ _ hrest
      · split
        · exact ⟨_, rfl⟩
        · split
          · exact ⟨_, rfl⟩
          · split
            · exact ⟨_, rfl⟩
            · split
              · exact ⟨_, rfl⟩
              · exact ih _ _ hrest

/-- `ParseUint` with base 0 and 64 bits on a text that does not start with
`0` runs the digit loop in base 10 over the whole text. -/
theorem ParseUint_base10 (c0 : Char) (t : List Char) (h0 : c0 ≠ '0') :
    ParseUint (c0 :: t) 0 IntSize =
      match parseUintLoop 10 true ((2 ^ 64 - 1) / 10 + 1)
        (wrap64 (wrap64 (2 ^ 64) + 2 ^ 64 - 1)) (c0 :: t) 0 false with
      | .error (v, e) => (v, some e)
      | .ok (n, underscores) =>
        if underscores = true ∧ underscoreOK (c0 :: t) = false then (0, some NumErr.ErrSyntax)
        else (n, none) := by
  unfold ParseUint
  simp only [reduceCtorEq, if_false, IntSize, show ¬ (2 ≤ 0 ∧ 0 ≤ 36) by omega,
    decide_True, if_true, show ¬ (64 > 64) by omega, show (64 : ℕ) ≠ 0 by omega, h0]

/-- `ParseInt` with base 0 and 64 bits rejects every text that, after its
optional sign, does not start with `0` and has a byte that is neither a
decimal digit nor an underscore. -/
theorem ParseInt_not_decimal (s : GoString) (h : notDecimal s = true) :
    (ParseInt s 0 IntSize).2 ≠ none := by
  cases s with
  | nil => simp [notDecimal, unsigned] at h
  | cons c cs =>
    have hu : unsigned (c :: cs) = (if c = '+' then cs else if c = '-' then cs else c :: cs) :=
      rfl
    simp only [notDecimal, hu, decide_eq_true_eq, Bool.and_eq_true, List.any_eq_true] at h
    obtain ⟨hhead, x, hx, hb⟩ := h
    obtain ⟨c0, t, ht⟩ := List.exists_cons_of_ne_nil (List.ne_nil_of_mem hx)
    rw [ht] at hhead hx
    have h0 : c0 ≠ '0' := fun e => hhead (by rw [e]; rfl)
    obtain ⟨e, he⟩ := parseUintLoop_not_decimal ((2 ^ 64 - 1) / 10 + 1)
      (wrap64 (wrap64 (2 ^ 64) + 2 ^ 64 - 1)) (c0 :: t) 0 false ⟨x, hx, hb⟩
    have heq := ParseUint_base10 c0 t h0
    rw [he] at heq
    simp only at heq
    rw [← ht] at heq
    exact ParseInt_of_ParseUint_error c cs e.1 e.2 heq

end strconv

/-! ## flag: the loop of `Parse` -/

namespace flag

/-- Setting a flag removes no more than the arguments there are, writes
nothing unless it fails, and reports the flag as seen only without error. -/
theorem setFlag_seen (f : FlagSet) (fl : Flag) (name : GoString) (hv : Bool) (value : GoString) :
    (f.setFlag fl name hv value).1.args.length ≤ f.args.length ∧
    ((f.setFlag fl name hv value).2.2 = none → (f.setFlag fl name hv value).1.output = f.output) ∧
    ((f.setFlag fl name hv value).2.1 = true → (f.setFlag fl name hv value).2.2 = none) := by
  unfold FlagSet.setFlag
  split
  · split <;> split <;> simp [FlagSet.failf, FlagSet.usage, FlagSet.store]
  · cases hv <;> cases hargs : f.args <;> simp only [] <;>
      split <;> try split
    all_goals simp_all [FlagSet.failf, FlagSet.usage, FlagSet.store]

/-- The same three facts for `parseFlag`. -/
theorem parseFlag_seen (f : FlagSet) (name : GoString) :
    (f.parseFlag name).1.args.length ≤ f.args.length ∧
    ((f.parseFlag name).2.2 = none → (f.parseFlag name).1.output = f.output) ∧
    ((f.parseFlag name).2.1 = true → (f.parseFlag name).2.2 = none) := by
  unfold FlagSet.parseFlag
  simp only []
  split
  · split <;> simp [FlagSet.failf, FlagSet.usage]
  · exact setFlag_seen _ _ _ _ _

/-- A call of `parseOne` that reports a flag as seen has removed at least one
argument and returned no error; a call without error has written nothing. -/
theorem parseOne_seen (f : FlagSet) :
    (f.parseOne.2.1 = true → f.parseOne.1.args.length < f.args.length) ∧
    (f.parseOne.2.2 = none → f.parseOne.1.output = f.output) ∧
    (f.parseOne.2.1 = true → f.parseOne.2.2 = none) := by
  unfold FlagSet.parseOne
  split
  · simp
  · rename_i s rest hargs
    split
    · simp
    · split
      · simp
      · generalize (if s.get? 1 = some '-' then 2 else 1) = k
        simp only []
        split
        · simp [FlagSet.failf, FlagSet.usage]
        · have h := parseFlag_seen { f with args := rest } (List.drop k s)
          simp only [hargs, List.length_cons] at h ⊢
          exact ⟨fun _ => by omega, h.2.1, h.2.2⟩

/-- The bound on the loop of `Parse` is never reached: with more iterations
allowed than there are arguments left, the loop ends by itself. -/
theorem parseLoop_fuel (fuel : Nat) (f : FlagSet) (h : f.args.length < fuel) :
    (FlagSet.parseLoop fuel f).2 ≠ Ending.outOfFuel := by
  induction fuel generalizing f with
  | zero => omega
  | succ k ih =>
    unfold FlagSet.parseLoop
    have hs := parseOne_seen f
    split
    · rename_i f1 e heq
      apply ih
      have := hs.1 (by rw [heq])
      rw [heq] at this
      simp only at this
      omega
    · simp
    · split
      · simp
      · split <;> simp
      · simp

/-- The result of the loop of `Parse` does not depend on the bound, as long as
the bound exceeds the number of arguments left. -/
theorem parseLoop_bound_irrelevant (fuel1 fuel2 : Nat) (f : FlagSet)
    (h1 : f.args.length < fuel1) (h2 : f.args.length < fuel2) :
    FlagSet.parseLoop fuel1 f = FlagSet.parseLoop fuel2 f := by
  induction fuel1 generalizing fuel2 f with
  | zero => omega
  | succ k ih =>
    cases fuel2 with
    | zero => omega
    | succ j =>
      have hs := parseOne_seen f
      unfold FlagSet.parseLoop
      split
      · rename_i f1 e heq
        have hlt := hs.1 (by rw [heq])
        rw [heq] at hlt
        simp only at hlt
        exact ih j f1 (by omega) (by omega)
      · rfl
      · rfl

/-- A run of the loop of `Parse` that ends without an error has written
nothing. -/
theorem parseLoop_output (fuel : Nat) (f f1 : FlagSet)
    (h : FlagSet.parseLoop fuel f = (f1, Ending.returned none)) : f1.output = f.output := by
  induction fuel generalizing f with
  | zero => simp [FlagSet.parseLoop] at h
  | succ k ih =>
    unfold FlagSet.parseLoop at h
    have hs := parseOne_seen f
    split at h
    · rename_i f2 e heq
      rw [ih _ h]
      have h1 := hs.2.2 (by rw [heq])
      have h2 := hs.2.1 h1
      rw [heq] at h2
      exact h2
    · rename_i f2 heq
      simp only [Prod.mk.injEq, and_true] at h
      have h2 := hs.2.1 (by rw [heq])
      rw [heq] at h2
      subst h
      exact h2
    · split at h
      · simp at h
      · split at h <;> simp at h
      · simp at h

/-- An iteration of the loop whose `parseOne` saw a flag goes on with the next. -/
theorem parseLoop_seen (k : Nat) (f f1 : FlagSet) (e : Option Error)
    (h : f.parseOne = (f1, true, e)) :
    FlagSet.parseLoop (k + 1) f = FlagSet.parseLoop k f1 := by
  rw [FlagSet.parseLoop, h]

/-- An iteration whose `parseOne` failed, under `ExitOnError`, with an error
other than `ErrHelp`, ends the loop in `os.Exit(2)`. -/
theorem parseLoop_failed (k : Nat) (f f1 : FlagSet) (err : Error)
    (h : f.parseOne = (f1, false, some err)) (heh : f1.errorHandling = ErrorHandling.ExitOnError)
    (hne : err ≠ Error.ErrHelp) :
    FlagSet.parseLoop (k + 1) f = (f1, Ending.exit 2) := by
  rw [FlagSet.parseLoop, h]
  simp only [heh, if_neg hne]

end flag

/-! ## flag: `parseOne` on the declared flags -/

namespace flag

/-- `(*intValue).Set` when `ParseInt` accepts the text. -/
theorem Set_intValue_accepted (n m : ℤ) (v : GoString)
    (h : strconv.ParseInt v 0 strconv.IntSize = (m, none)) :
    Value.Set (Value.intValue n) v = (Value.intValue m, none) := by
  rw [Value.Set, h]

/-- `(*intValue).Set` when `ParseInt` rejects the text. -/
theorem Set_intValue_rejected (n m : ℤ) (v : GoString) (e : strconv.NumErr)
    (h : strconv.ParseInt v 0 strconv.IntSize = (m, some e)) :
    Value.Set (Value.intValue n) v = (Value.intValue m, some (numError e)) := by
  rw [Value.Set, h]

/-- The call of `parseOne` on `-inverters v ...` in a state with the four
declared flags, when `ParseInt` accepts `v` as `m`. -/
theorem parseOne_inverters_accepted (p : Bool) (act : List GoString) (a b c : GoString)
    (n m : ℤ) (v : GoString) (rest : List GoString) (eh : ErrorHandling) (out : List Written)
    (h : strconv.ParseInt v 0 strconv.IntSize = (m, none)) :
    FlagSet.parseOne ⟨p, act, declared a b c n, "-inverters".toList :: v :: rest, eh, out⟩ =
      (⟨p, act.erase "inverters".toList ++ ["inverters".toList], declared a b c m, rest, eh, out⟩,
        true, none) := by
  have e : FlagSet.parseOne
      ⟨p, act, declared a b c n, "-inverters".toList :: v :: rest, eh, out⟩ =
      match Value.Set (.intValue n) v with
      | (w, some e) =>
        (⟨p, act, (declared a b c n).map
            (fun fl => if fl.Name = "inverters".toList then { fl with Value := w } else fl),
          rest, eh, out ++ [.message (.invalidValue v "inverters".toList e)] ++ [.usage]⟩,
          false, some (.invalidValue v "inverters".toList e))
      | (w, none) =>
        (⟨p, act.erase "inverters".toList ++ ["inverters".toList], (declared a b c n).map
            (fun fl => if fl.Name = "inverters".toList then { fl with Value := w } else fl),
          rest, eh, out⟩, true, none) := rfl
  rw [e, Set_intValue_accepted n m v h]
  rfl

/-- The call of `parseOne` on `-inverters v ...` in a state with the four
declared flags, when `ParseInt` rejects `v`. -/
theorem parseOne_inverters_rejected (p : Bool) (act : List GoString) (a b c : GoString)
    (n m : ℤ) (v : GoString) (rest : List GoString) (eh : ErrorHandling) (out : List Written)
    (ne : strconv.NumErr) (h : strconv.ParseInt v 0 strconv.IntSize = (m, some ne)) :
    FlagSet.parseOne ⟨p, act, declared a b c n, "-inverters".toList :: v :: rest, eh, out⟩ =
      (⟨p, act, declared a b c m, rest, eh,
        out ++ [.message (.invalidValue v "inverters".toList (numError ne))] ++ [.usage]⟩,
        false, some (.invalidValue v "inverters".toList (numError ne))) := by
  have e : FlagSet.parseOne
      ⟨p, act, declared a b c n, "-inverters".toList :: v :: rest, eh, out⟩ =
      match Value.Set (.intValue n) v with
      | (w, some e) =>
        (⟨p, act, (declared a b c n).map
            (fun fl => if fl.Name = "inverters".toList then { fl with Value := w } else fl),
          rest, eh, out ++ [.message (.invalidValue v "inverters".toList e)] ++ [.usage]⟩,
          false, some (.invalidValue v "inverters".toList e))
      | (w, none) =>
        (⟨p, act.erase "inverters".toList ++ ["inverters".toList], (declared a b c n).map
            (fun fl => if fl.Name = "inverters".toList then { fl with Value := w } else fl),
          rest, eh, out⟩, true, none) := rfl
  rw [e, Set_intValue_rejected n m v ne h]
  rfl

/-- The call of `parseOne` on `-inverters=v ...` in a state with the four
declared flags, when `ParseInt` rejects `v`. -/
theorem parseOne_inverters_eq_rejected (p : Bool) (act : List GoString) (a b c : GoString)
    (n m : ℤ) (v : GoString) (rest : List GoString) (eh : ErrorHandling) (out : List Written)
    (ne : strconv.NumErr) (h : strconv.ParseInt v 0 strconv.IntSize = (m, some ne)) :
    FlagSet.parseOne ⟨p, act, declared a b c n, ("-inverters=".toList ++ v) :: rest, eh, out⟩ =
      (⟨p, act, declared a b c m, rest, eh,
        out ++ [.message (.invalidValue v "inverters".toList (numError ne))] ++ [.usage]⟩,
        false, some (.invalidValue v "inverters".toList (numError ne))) := by
  have e : FlagSet.parseOne
      ⟨p, act, declared a b c n, ("-inverters=".toList ++ v) :: rest, eh, out⟩ =
      match Value.Set (.intValue n) v with
      | (w, some e) =>
        (⟨p, act, (declared a b c n).map
            (fun fl => if fl.Name = "inverters".toList then { fl with Value := w } else fl),
          rest, eh, out ++ [.message (.invalidValue v "inverters".toList e)] ++ [.usage]⟩,
          false, some (.invalidValue v "inverters".toList e))
      | (w, none) =>
        (⟨p, act.erase "inverters".toList ++ ["inverters".toList], (declared a b c n).map
            (fun fl => if fl.Name = "inverters".toList then { fl with Value := w } else fl),
          rest, eh, out⟩, true, none) := rfl
  rw [e, Set_intValue_rejected n m v ne h]
  rfl

/-- Without an `=` the scan finds none. -/
theorem scanEquals_none (cs : List Char) (i : Nat) (h : '=' ∉ cs) : scanEquals cs i = none := by
  induction cs generalizing i with
  | nil => rfl
  | cons x xs ih =>
    simp only [List.mem_cons, not_or] at h
    rw [scanEquals, if_neg (fun e => h.1 e.symm)]
    exact ih _ h.2

/-- The scan finds the first `=`. -/
theorem scanEquals_some (cs value : List Char) (i : Nat) (h : '=' ∉ cs) :
    scanEquals (cs ++ '=' :: value) i = some (i + cs.length) := by
  induction cs generalizing i with
  | nil => simp [scanEquals]
  | cons x xs ih =>
    simp only [List.mem_cons, not_or] at h
    rw [List.cons_append, scanEquals, if_neg (fun e => h.1 e.symm), ih _ h.2]
    simp only [List.length_cons]
    congr 1
    omega

/-- A name that is none of the four declared ones is not found in a state
with the four declared flags. -/
theorem lookup_undeclared (p : Bool) (act : List GoString) (a b c : GoString) (n : ℤ)
    (args : List GoString) (eh : ErrorHandling) (out : List Written) (nm : GoString)
    (h1 : nm ≠ "interface".toList) (h2 : nm ≠ "system-id".toList)
    (h3 : nm ≠ "api-key".toList) (h4 : nm ≠ "inverters".toList) :
    FlagSet.lookup ⟨p, act, declared a b c n, args, eh, out⟩ nm = none := by
  simp only [FlagSet.lookup, declared, List.find?]
  rw [decide_eq_false (Ne.symm h1), decide_eq_false (Ne.symm h2), decide_eq_false (Ne.symm h3),
    decide_eq_false (Ne.symm h4)]

/-- The name part of `parseOne` for an argument whose name `nm` (up to an
optional `=value`) is not declared and is not `help` or `h`: the call fails
with "flag provided but not defined". -/
theorem parseFlag_undeclared (p : Bool) (act : List GoString) (a b c : GoString) (n : ℤ)
    (args : List GoString) (eh : ErrorHandling) (out : List Written) (nm tail : GoString)
    (hnil : nm ≠ []) (heq : '=' ∉ nm) (htail : tail = [] ∨ ∃ value, tail = '=' :: value)
    (h1 : nm ≠ "interface".toList) (h2 : nm ≠ "system-id".toList)
    (h3 : nm ≠ "api-key".toList) (h4 : nm ≠ "inverters".toList)
    (h5 : nm ≠ "help".toList) (h6 : nm ≠ "h".toList) :
    FlagSet.parseFlag ⟨p, act, declared a b c n, args, eh, out⟩ (nm ++ tail) =
      FlagSet.failf ⟨p, act, declared a b c n, args, eh, out⟩ (Error.notDefined nm) := by
  obtain ⟨x, xs, rfl⟩ := List.exists_cons_of_ne_nil hnil
  simp only [List.mem_cons, not_or] at heq
  have hsplit : (match scanEquals ((x :: xs ++ tail).drop 1) 1 with
      | some i => ((x :: xs ++ tail).take i, true, (x :: xs ++ tail).drop (i + 1))
      | none => (x :: xs ++ tail, false, [])).1 = x :: xs := by
    rcases htail with rfl | ⟨value, rfl⟩
    · simp only [List.append_nil, List.drop_succ_cons, List.drop_zero]
      rw [scanEquals_none xs 1 heq.2]
    · simp only [List.cons_append, List.drop_succ_cons, List.drop_zero]
      rw [scanEquals_some xs value 1 heq.2]
      simp only [Nat.add_comm 1 xs.length, List.take_succ_cons]
      rw [List.take_left']
      rfl
  unfold FlagSet.parseFlag
  simp only [hsplit]
  rw [lookup_undeclared _ _ _ _ _ _ _ _ _ _ h1 h2 h3 h4]
  simp only [h5, h6, or_self, if_false]

/-- The call of `parseOne` on an argument `-nm`, `-nm=value`, `--nm` or
`--nm=value` whose name is not declared and is not `help` or `h`. -/
theorem parseOne_undeclared (p : Bool) (act : List GoString) (a b c : GoString) (n : ℤ)
    (rest : List GoString) (eh : ErrorHandling) (out : List Written) (nm tail : GoString)
    (two : Bool)
    (hnil : nm ≠ []) (hminus : nm.head? ≠ some '-') (heq : '=' ∉ nm)
    (htail : tail = [] ∨ ∃ value, tail = '=' :: value)
    (h1 : nm ≠ "interface".toList) (h2 : nm ≠ "system-id".toList)
    (h3 : nm ≠ "api-key".toList) (h4 : nm ≠ "inverters".toList)
    (h5 : nm ≠ "help".toList) (h6 : nm ≠ "h".toList) :
    FlagSet.parseOne ⟨p, act, declared a b c n,
        ((if two then ['-', '-'] else ['-']) ++ nm ++ tail) :: rest, eh, out⟩ =
      FlagSet.failf ⟨p, act, declared a b c n, rest, eh, out⟩ (Error.notDefined nm) := by
  have hpf := parseFlag_undeclared p act a b c n rest eh out nm tail hnil heq htail h1 h2 h3 h4 h5 h6
  obtain ⟨x, xs, rfl⟩ := List.exists_cons_of_ne_nil hnil
  simp only [List.mem_cons, not_or] at heq
  simp only [List.head?_cons, ne_eq, Option.some.injEq] at hminus
  have hx : x ≠ '=' := fun e => heq.1 e.symm
  cases two
  · simp only [FlagSet.parseOne, Bool.false_eq_true, if_false, List.cons_append, List.nil_append,
      List.length_cons, List.head?_cons, List.get?_cons_succ, List.get?_cons_zero,
      Option.some.injEq, hminus, false_and, List.drop_succ_cons, List.drop_zero]
    rw [if_neg (by simp), if_neg (by simp [hx])]
    exact hpf
  · simp only [FlagSet.parseOne, if_true, List.cons_append, List.nil_append,
      List.length_cons, List.head?_cons, List.get?_cons_succ, List.get?_cons_zero,
      Option.some.injEq, hminus, true_and, List.drop_succ_cons, List.drop_zero]
    rw [if_neg (by simp), if_neg (by omega), if_neg (by simp [hx])]
    exact hpf

end flag

/-! ## flag: every state of the parser holds the four declared flags -/

namespace flag

/-- `Set` keeps the dynamic type of a value, so storing its result in the flag
that was looked up leaves the four declared flags in place. -/
theorem store_declared (a b c : GoString) (n : ℤ) (name value : GoString) (fl : Flag)
    (w : Value) (e : Option SetErr)
    (hl : (declared a b c n).find? (fun x => x.Name = name) = some fl)
    (hs : fl.Value.Set value = (w, e)) :
    ∃ a1 b1 c1 n1, (declared a b c n).map
        (fun x => if x.Name = name then { x with Value := w } else x) = declared a1 b1 c1 n1 := by
  simp only [declared, List.find?] at hl
  by_cases h1 : "interface".toList = name
  · subst h1
    simp only [decide_True, Option.some.injEq] at hl
    subst hl
    simp only [Value.Set, Prod.mk.injEq] at hs
    obtain ⟨rfl, _⟩ := hs
    exact ⟨value, b, c, n, rfl⟩
  · rw [decide_eq_false h1] at hl
    by_cases h2 : "system-id".toList = name
    · subst h2
      simp only [decide_True, Option.some.injEq] at hl
      subst hl
      simp only [Value.Set, Prod.mk.injEq] at hs
      obtain ⟨rfl, _⟩ := hs
      exact ⟨a, value, c, n, rfl⟩
    · rw [decide_eq_false h2] at hl
      by_cases h3 : "api-key".toList = name
      · subst h3
        simp only [decide_True, Option.some.injEq] at hl
        subst hl
        simp only [Value.Set, Prod.mk.injEq] at hs
        obtain ⟨rfl, _⟩ := hs
        exact ⟨a, b, value, n, rfl⟩
      · rw [decide_eq_false h3] at hl
        by_cases h4 : "inverters".toList = name
        · subst h4
          simp only [decide_True, Option.some.injEq] at hl
          subst hl
          cases hp : strconv.ParseInt value 0 strconv.IntSize with
          | mk m pe =>
            have hw : w = Value.intValue m := by
              cases pe with
              | none => rw [Set_intValue_accepted n m value hp] at hs; exact (Prod.mk.inj hs).1.symm
              | some ne =>
                rw [Set_intValue_rejected n m value ne hp] at hs; exact (Prod.mk.inj hs).1.symm
            subst hw
            exact ⟨a, b, c, m, rfl⟩
        · rw [decide_eq_false h4] at hl
          simp at hl

/-- The invariant of the parser's states: the error handling is `ExitOnError`
and `formal` holds the four declared flags with some values. -/
theorem setFlag_declared (f : FlagSet) (fl : Flag) (name : GoString) (hv : Bool)
    (value : GoString) (a b c : GoString) (n : ℤ) (hf : f.formal = declared a b c n)
    (hl : f.lookup name = some fl) :
    (f.setFlag fl name hv value).1.errorHandling = f.errorHandling ∧
    ∃ a1 b1 c1 n1, (f.setFlag fl name hv value).1.formal = declared a1 b1 c1 n1 := by
  have hl2 : (declared a b c n).find? (fun x => x.Name = name) = some fl := by
    rw [← hf]; exact hl
  unfold FlagSet.setFlag
  split
  · split
    · split
      · rename_i w err hs
        exact ⟨rfl, by
          simp only [FlagSet.failf, FlagSet.usage, FlagSet.store, hf]
          exact store_declared a b c n name _ fl w _ hl2 hs⟩
      · rename_i w hs
        exact ⟨rfl, by
          simp only [FlagSet.store, hf]
          exact store_declared a b c n name _ fl w _ hl2 hs⟩
    · split
      · rename_i w err hs
        exact ⟨rfl, by
          simp only [FlagSet.failf, FlagSet.usage, FlagSet.store, hf]
          exact store_declared a b c n name _ fl w _ hl2 hs⟩
      · rename_i w hs
        exact ⟨rfl, by
          simp only [FlagSet.store, hf]
          exact store_declared a b c n name _ fl w _ hl2 hs⟩
  · cases hv <;> cases hargs : f.args <;> simp only [] <;> split
    all_goals first
      | exact ⟨rfl, a, b, c, n, hf⟩
      | (split
         · rename_i w err hs
           exact ⟨rfl, by
             simp only [FlagSet.failf, FlagSet.usage, FlagSet.store, hf]
             exact store_declared a b c n name _ fl w _ hl2 hs⟩
         · rename_i w hs
           exact ⟨rfl, by
             simp only [FlagSet.store, hf]
             exact store_declared a b c n name _ fl w _ hl2 hs⟩)

/-- The same invariant for `parseFlag`. -/
theorem parseFlag_declared (f : FlagSet) (name : GoString) (a b c : GoString) (n : ℤ)
    (hf : f.formal = declared a b c n) :
    (f.parseFlag name).1.errorHandling = f.errorHandling ∧
    ∃ a1 b1 c1 n1, (f.parseFlag name).1.formal = declared a1 b1 c1 n1 := by
  unfold FlagSet.parseFlag
  simp only []
  split
  · split
    · exact ⟨rfl, a, b, c, n, hf⟩
    · exact ⟨rfl, a, b, c, n, hf⟩
  · rename_i fl hl
    exact setFlag_declared f fl _ _ _ a b c n hf hl

/-- The same invariant for `parseOne`. -/
theorem parseOne_declared (f : FlagSet) (a b c : GoString) (n : ℤ)
    (hf : f.formal = declared a b c n) :
    f.parseOne.1.errorHandling = f.errorHandling ∧
    ∃ a1 b1 c1 n1, f.parseOne.1.formal = declared a1 b1 c1 n1 := by
  unfold FlagSet.parseOne
  split
  · exact ⟨rfl, a, b, c, n, hf⟩
  · rename_i s rest hargs
    split
    · exact ⟨rfl, a, b, c, n, hf⟩
    · split
      · exact ⟨rfl, a, b, c, n, hf⟩
      · generalize (if s.get? 1 = some '-' then 2 else 1) = k
        simp only []
        split
        · exact ⟨rfl, a, b, c, n, hf⟩
        · exact parseFlag_declared { f with args := rest } (List.drop k s) a b c n hf

/-- `failf` with an error other than `ErrHelp` writes the message and the usage. -/
theorem failf_writes (f g : FlagSet) (e : Error) (he : e ≠ Error.ErrHelp)
    (hg : g.output = f.output) : f.WritesByError (g.failf e) := by
  refine Or.inr (Or.inr ⟨rfl, e, he, rfl, ?_⟩)
  simp [FlagSet.failf, FlagSet.usage, hg]

/-- Setting a flag writes by the error it returns. -/
theorem setFlag_writes (f : FlagSet) (fl : Flag) (name : GoString) (hv : Bool)
    (value : GoString) : f.WritesByError (f.setFlag fl name hv value) := by
  unfold FlagSet.setFlag
  split
  · split <;> split
    all_goals first
      | exact failf_writes _ _ _ (by simp) rfl
      | exact Or.inl ⟨rfl, rfl⟩
  · cases hv <;> cases hargs : f.args <;> simp only [] <;> split
    all_goals first
      | exact failf_writes _ _ _ (by simp) rfl
      | (split
         · exact failf_writes _ _ _ (by simp) rfl
         · exact Or.inl ⟨rfl, rfl⟩)

/-- The same for `parseFlag`. -/
theorem parseFlag_writes (f : FlagSet) (name : GoString) :
    f.WritesByError (f.parseFlag name) := by
  unfold FlagSet.parseFlag
  simp only []
  split
  · split
    · exact Or.inr (Or.inl ⟨rfl, rfl, rfl⟩)
    · exact failf_writes _ _ _ (by simp) rfl
  · exact setFlag_writes _ _ _ _ _

/-- The same for `parseOne`. -/
theorem parseOne_writes (f : FlagSet) : f.WritesByError f.parseOne := by
  unfold FlagSet.parseOne
  split
  · exact Or.inl ⟨rfl, rfl⟩
  · rename_i s rest hargs
    split
    · exact Or.inl ⟨rfl, rfl⟩
    · split
      · exact Or.inl ⟨rfl, rfl⟩
      · generalize (if s.get? 1 = some '-' then 2 else 1) = k
        simp only []
        split
        · exact failf_writes _ _ _ (by simp) rfl
        · exact parseFlag_writes { f with args := rest } (List.drop k s)

/-- The three ways the loop of `Parse` ends under `ExitOnError` in a state
with the four declared flags: it returns without error and has written
nothing; or it met `-h` or `-help`, has written the usage, and calls
`os.Exit(0)`; or a flag failed to parse, the error message and the usage are
written, and it calls `os.Exit(2)`. -/
theorem parseLoop_ends (fuel : Nat) (f : FlagSet) (a b c : GoString) (n : ℤ)
    (hfuel : f.args.length < fuel) (heh : f.errorHandling = ErrorHandling.ExitOnError)
    (hf : f.formal = declared a b c n) :
    ((FlagSet.parseLoop fuel f).2 = Ending.returned none ∧
      (FlagSet.parseLoop fuel f).1.output = f.output) ∨
    ((FlagSet.parseLoop fuel f).2 = Ending.exit 0 ∧
      (FlagSet.parseLoop fuel f).1.output = f.output ++ [Written.usage]) ∨
    ((FlagSet.parseLoop fuel f).2 = Ending.exit 2 ∧ ∃ err, err ≠ Error.ErrHelp ∧
      (FlagSet.parseLoop fuel f).1.output =
        f.output ++ [Written.message err] ++ [Written.usage]) := by
  induction fuel generalizing f a b c n with
  | zero => omega
  | succ k ih =>
    have hw := parseOne_writes f
    have hd := parseOne_declared f a b c n hf
    have hs := parseOne_seen f
    unfold FlagSet.parseLoop
    split
    · rename_i f1 e heq
      rw [heq] at hw hd hs
      simp only at hd hs
      obtain ⟨a1, b1, c1, n1, hf1⟩ := hd.2
      have hout : f1.output = f.output := by
        rcases hw with h | h | h
        · exact h.2
        · exact absurd h.1 (by simp)
        · exact absurd h.1 (by simp)
      have := ih f1 a1 b1 c1 n1 (by have := hs.1 trivial; omega) (by rw [hd.1, heh]) hf1
      rw [hout] at this
      exact this
    · rename_i f1 heq
      rw [heq] at hw
      rcases hw with h | h | h
      · exact Or.inl ⟨rfl, h.2⟩
      · exact absurd h.2.1 (by simp)
      · obtain ⟨_, err, _, h2, _⟩ := h
        exact absurd h2 (by simp)
    · rename_i f1 err heq
      rw [heq] at hw hd
      simp only at hd
      have heh1 : f1.errorHandling = ErrorHandling.ExitOnError := by rw [hd.1, heh]
      rw [heh1]
      simp only
      rcases hw with h | h | h
      · exact absurd h.1 (by simp)
      · obtain ⟨_, h2, h3⟩ := h
        simp only [Option.some.injEq] at h2
        subst h2
        exact Or.inr (Or.inl ⟨by simp, h3⟩)
      · obtain ⟨_, err1, hne, h2, h3⟩ := h
        simp only [Option.some.injEq] at h2
        subst h2
        rw [if_neg hne]
        exact Or.inr (Or.inr ⟨rfl, err, hne, h3⟩)

/-- After `k` calls of `parseOne` that each saw a flag, the invariant still
holds, at least `k` arguments are gone, and the loop of `Parse` has used `k`
of its iterations. -/
theorem parseSeen_loop (k : Nat) (f g : FlagSet) (a b c : GoString) (n : ℤ)
    (hf : f.formal = declared a b c n) (h : f.parseSeen k = some g) :
    g.errorHandling = f.errorHandling ∧
    (∃ a1 b1 c1 n1, g.formal = declared a1 b1 c1 n1) ∧
    g.args.length + k ≤ f.args.length ∧
    ∀ fuel, FlagSet.parseLoop (fuel + k) f = FlagSet.parseLoop fuel g := by
  induction k generalizing f a b c n with
  | zero =>
    simp only [FlagSet.parseSeen, Option.some.injEq] at h
    subst h
    exact ⟨rfl, ⟨a, b, c, n, hf⟩, by omega, fun _ => rfl⟩
  | succ j ih =>
    have hd := parseOne_declared f a b c n hf
    have hs := parseOne_seen f
    unfold FlagSet.parseSeen at h
    split at h
    · rename_i f1 e heq
      rw [heq] at hd hs
      obtain ⟨a1, b1, c1, n1, hf1⟩ := hd.2
      obtain ⟨h1, h2, h3, h4⟩ := ih f1 a1 b1 c1 n1 hf1 h
      have hlt := hs.1 rfl
      simp only at hlt hd
      refine ⟨by rw [h1, hd.1], h2, by omega, fun fuel => ?_⟩
      rw [show fuel + (j + 1) = (fuel + j) + 1 from rfl, parseLoop_seen _ _ _ _ heq]
      exact h4 fuel
    · simp at h

end flag

/-! ## `main`, one `parseOne` at a time -/

/-- Package initialisation succeeds: no call of `Var` panics. -/
theorem CommandLine_isSome : CommandLine.isSome = true := by decide

/-- Package initialisation leaves the four declared flags at their defaults. -/
theorem CommandLine_eq : CommandLine = some
    { parsed := false, actual := [], formal := declared [] [] [] 1, args := [],
      errorHandling := flag.ErrorHandling.ExitOnError, output := [] } := rfl

/-- With the initialised flag set `cl`, `main` is `flag.Parse` on it. -/
theorem main_eq_Parse (cl : flag.FlagSet) (args : List GoString) (hcl : CommandLine = some cl) :
    main args = flag.Parse cl args := by
  unfold main
  rw [hcl]

/-- When `(*FlagSet).Parse` returns without error, `main` returns with the
flag set it left, and nothing has been written. -/
theorem main_of_Parse_returned (cl f : flag.FlagSet) (args : List GoString)
    (hcl : CommandLine = some cl)
    (hp : flag.FlagSet.Parse cl args = (f, flag.Ending.returned none)) :
    main args = { flags := f, termination := Termination.mainReturned } ∧
      (main args).exitStatus = some 0 ∧ f.output = [] := by
  have hm : main args = { flags := f, termination := Termination.mainReturned } := by
    rw [main_eq_Parse cl args hcl]
    unfold flag.Parse
    rw [hp]
  refine ⟨hm, by rw [hm]; rfl, ?_⟩
  have ho := flag.parseLoop_output _ _ _ hp
  rw [ho]
  have : cl.output = [] := by
    have h0 : CommandLine = some cl := hcl
    revert h0
    unfold CommandLine
    intro h0
    simp [flag.String, flag.Int, flag.FlagSet.Var, flag.NewFlagSet, flag.FlagSet.lookup] at h0
    rw [← h0]
  exact this

/-- `main` always ends: the bound of the model's loop is never what ends it. -/
theorem main_terminates (args : List GoString) :
    (main args).termination ≠ Termination.outOfFuel := by
  unfold main
  split
  · simp
  · rename_i cl _
    unfold flag.Parse
    have h := flag.parseLoop_fuel (args.length + 1)
      { cl with parsed := true, args := args } (by simp)
    unfold flag.FlagSet.Parse
    split <;> simp_all

/-- When the loop of `Parse`, started on the initialised flag set, ends
without error, `main` returns. -/
theorem main_of_loop_returned (args : List GoString) (f : flag.FlagSet) (e : Option flag.Error)
    (h : flag.FlagSet.parseLoop (args.length + 1)
      ⟨true, [], declared [] [] [] 1, args, flag.ErrorHandling.ExitOnError, []⟩ =
        (f, flag.Ending.returned e)) :
    main args = { flags := f, termination := Termination.mainReturned } := by
  have e1 : main args = match flag.FlagSet.parseLoop (args.length + 1)
      ⟨true, [], declared [] [] [] 1, args, flag.ErrorHandling.ExitOnError, []⟩ with
    | (f, .returned _) => { flags := f, termination := .mainReturned }
    | (f, .exit code) => { flags := f, termination := .osExit code }
    | (f, .panic _) => { flags := f, termination := .panicked }
    | (f, .outOfFuel) => { flags := f, termination := .outOfFuel } := rfl
  rw [e1, h]

/-- When the loop of `Parse`, started on the initialised flag set, ends in
`os.Exit(code)`, so does `main`. -/
theorem main_of_loop_exit (args : List GoString) (f : flag.FlagSet) (code : Nat)
    (h : flag.FlagSet.parseLoop (args.length + 1)
      ⟨true, [], declared [] [] [] 1, args, flag.ErrorHandling.ExitOnError, []⟩ =
        (f, flag.Ending.exit code)) :
    main args = { flags := f, termination := Termination.osExit code } := by
  have e1 : main args = match flag.FlagSet.parseLoop (args.length + 1)
      ⟨true, [], declared [] [] [] 1, args, flag.ErrorHandling.ExitOnError, []⟩ with
    | (f, .returned _) => { flags := f, termination := .mainReturned }
    | (f, .exit code) => { flags := f, termination := .osExit code }
    | (f, .panic _) => { flags := f, termination := .panicked }
    | (f, .outOfFuel) => { flags := f, termination := .outOfFuel } := rfl
  rw [e1, h]

/-- When the parser, started by `main` on `args`, has set `k` flags and its
next call of `parseOne` fails with an error other than `ErrHelp`, the program
ends in `os.Exit(2)`. -/
theorem main_of_parseSeen_failed (args : List GoString) (k : Nat) (g g1 : flag.FlagSet)
    (err : flag.Error)
    (hk : flag.FlagSet.parseSeen k
      ⟨true, [], declared [] [] [] 1, args, flag.ErrorHandling.ExitOnError, []⟩ = some g)
    (h1 : g.parseOne = (g1, false, some err)) (hne : err ≠ flag.Error.ErrHelp) :
    main args = { flags := g1, termination := Termination.osExit 2 } := by
  obtain ⟨heh, _, hlen, hloop⟩ := flag.parseSeen_loop k _ g [] [] [] 1 rfl hk
  simp only at hlen heh
  apply main_of_loop_exit
  obtain ⟨j, hj⟩ : ∃ j, args.length + 1 = (j + 1) + k := ⟨args.length - k, by omega⟩
  rw [hj, hloop]
  obtain ⟨a1, b1, c1, n1, hg⟩ := (flag.parseSeen_loop k _ g [] [] [] 1 rfl hk).2.1
  have hd := (flag.parseOne_declared g a1 b1 c1 n1 hg).1
  rw [h1] at hd
  exact flag.parseLoop_failed j g g1 err h1 (by rw [hd, heh]) hne

/-- The three ways `main` ends, for every argument list, each decided by what
`(*FlagSet).Parse` does on the initialised flag set `cl`: `Parse` returns
without error, `main` returns (exit status 0) and nothing is written; or
`Parse` calls `os.Exit(0)` having written the usage; or `Parse` calls
`os.Exit(2)` having written a flag parsing error and the usage. -/
theorem main_ends (cl : flag.FlagSet) (args : List GoString) (hcl : CommandLine = some cl) :
    ((flag.FlagSet.Parse cl args).2 = flag.Ending.returned none ∧
      main args = { flags := (flag.FlagSet.Parse cl args).1,
                    termination := Termination.mainReturned } ∧
      (main args).exitStatus = some 0 ∧ (main args).flags.output = []) ∨
    ((flag.FlagSet.Parse cl args).2 = flag.Ending.exit 0 ∧
      main args = { flags := (flag.FlagSet.Parse cl args).1,
                    termination := Termination.osExit 0 } ∧
      (main args).exitStatus = some 0 ∧ (main args).flags.output = [flag.Written.usage]) ∨
    ((flag.FlagSet.Parse cl args).2 = flag.Ending.exit 2 ∧
      main args = { flags := (flag.FlagSet.Parse cl args).1,
                    termination := Termination.osExit 2 } ∧
      (main args).exitStatus = some 2 ∧ ∃ err, err ≠ flag.Error.ErrHelp ∧
        (main args).flags.output = [flag.Written.message err, flag.Written.usage]) := by
  rw [CommandLine_eq, Option.some.injEq] at hcl
  subst hcl
  have h := flag.parseLoop_ends (args.length + 1)
    ⟨true, [], declared [] [] [] 1, args, flag.ErrorHandling.ExitOnError, []⟩ [] [] [] 1
    (by simp) rfl rfl
  cases hr : flag.FlagSet.parseLoop (args.length + 1)
    ⟨true, [], declared [] [] [] 1, args, flag.ErrorHandling.ExitOnError, []⟩ with
  | mk f e =>
    have hP : flag.FlagSet.Parse
        ⟨false, [], declared [] [] [] 1, [], flag.ErrorHandling.ExitOnError, []⟩ args =
        (f, e) := hr
    rw [hr] at h
    rw [hP]
    simp only [List.nil_append] at h
    rcases h with ⟨h1, h2⟩ | ⟨h1, h2⟩ | ⟨h1, err, hne, h2⟩
    · subst h1
      rw [main_of_loop_returned args f none hr]
      exact Or.inl ⟨rfl, rfl, rfl, h2⟩
    · subst h1
      rw [main_of_loop_exit args f 0 hr]
      exact Or.inr (Or.inl ⟨rfl, rfl, rfl, h2⟩)
    · subst h1
      rw [main_of_loop_exit args f 2 hr]
      exact Or.inr (Or.inr ⟨rfl, rfl, rfl, err, hne, by simpa using h2⟩)

/-- `-inverters v` with a value that `ParseInt` accepts as `m`: `main` returns
with the count `m` and the three strings untouched. -/
theorem main_inverters_accepted (v : GoString) (m : ℤ)
    (h : strconv.ParseInt v 0 strconv.IntSize = (m, none)) :
    main ["-inverters".toList, v] =
      { flags := { parsed := true, actual := ["inverters".toList],
                   formal := declared [] [] [] m, args := [],
                   errorHandling := flag.ErrorHandling.ExitOnError, output := [] },
        termination := Termination.mainReturned } := by
  apply main_of_loop_returned _ _ none
  rw [show ["-inverters".toList, v].length + 1 = 2 + 1 from rfl,
    flag.parseLoop_seen 2 _ _ _ (flag.parseOne_inverters_accepted _ _ _ _ _ _ m v _ _ _ h)]
  rfl

/-- `-interface s`: only the interface changes. -/
theorem main_interface (s : GoString) :
    main ["-interface".toList, s] =
      { flags := { parsed := true, actual := ["interface".toList],
                   formal := declared s [] [] 1, args := [],
                   errorHandling := flag.ErrorHandling.ExitOnError, output := [] },
        termination := Termination.mainReturned } := rfl

/-- `-system-id s`: only the system ID changes. -/
theorem main_systemID (s : GoString) :
    main ["-system-id".toList, s] =
      { flags := { parsed := true, actual := ["system-id".toList],
                   formal := declared [] s [] 1, args := [],
                   errorHandling := flag.ErrorHandling.ExitOnError, output := [] },
        termination := Termination.mainReturned } := rfl

/-- `-api-key s`: only the API key changes. -/
theorem main_apiKey (s : GoString) :
    main ["-api-key".toList, s] =
      { flags := { parsed := true, actual := ["api-key".toList],
                   formal := declared [] [] s 1, args := [],
                   errorHandling := flag.ErrorHandling.ExitOnError, output := [] },
        termination := Termination.mainReturned } := rfl

/-! ## The claims -/

/-- C1: started with an empty argument list, `main` returns after parsing with
interface, system ID and API key all the empty string and the inverter count
1. -/
theorem main_no_arguments_defaults :
    (main []).termination = Termination.mainReturned ∧
      interfaceIP (main []).flags = some [] ∧
      systemID (main []).flags = some [] ∧
      apiKey (main []).flags = some [] ∧
      inverterCount (main []).flags = some 1 := by
  decide

/-- C2, counterexample: with no arguments at all, and with only `-system-id 12345`,
a credential is missing (empty) and yet `main` returns normally, exit status 0. -/
theorem missing_credentials_exit_zero :
    (systemID (main []).flags = some [] ∧ apiKey (main []).flags = some [] ∧
      (main []).exitStatus = some 0) ∧
    (systemID (main ["-system-id".toList, "12345".toList]).flags = some "12345".toList ∧
      apiKey (main ["-system-id".toList, "12345".toList]).flags = some [] ∧
      (main ["-system-id".toList, "12345".toList]).exitStatus = some 0) := by
  decide

/-- C2, as amended: for every argument list in which the system ID or the API
key is missing (still the empty string when the program ends), flag parsing
alone decides how the program ends.  Either the parser accepts the list:
`main` returns normally, exit status 0, in the state the parser left and with
nothing written.  Or the parser meets `-h` or `-help`: the usage is written
and the program ends in `os.Exit(0)`.  Or a flag fails to parse: the error
message and the usage are written and the program ends in `os.Exit(2)`.  The
missing credential is not checked: the exit status is non-zero only in the
third case, and then it is 2. -/
theorem missing_credentials_not_checked (cl : flag.FlagSet) (args : List GoString)
    (hcl : CommandLine = some cl)
    (_hmissing : systemID (main args).flags = some [] ∨ apiKey (main args).flags = some []) :
    ((flag.FlagSet.Parse cl args).2 = flag.Ending.returned none ∧
      main args = { flags := (flag.FlagSet.Parse cl args).1,
                    termination := Termination.mainReturned } ∧
      (main args).exitStatus = some 0 ∧ (main args).flags.output = []) ∨
    ((flag.FlagSet.Parse cl args).2 = flag.Ending.exit 0 ∧
      main args = { flags := (flag.FlagSet.Parse cl args).1,
                    termination := Termination.osExit 0 } ∧
      (main args).exitStatus = some 0 ∧ (main args).flags.output = [flag.Written.usage]) ∨
    ((flag.FlagSet.Parse cl args).2 = flag.Ending.exit 2 ∧
      main args = { flags := (flag.FlagSet.Parse cl args).1,
                    termination := Termination.osExit 2 } ∧
      (main args).exitStatus = some 2 ∧ ∃ err, err ≠ flag.Error.ErrHelp ∧
        (main args).flags.output = [flag.Written.message err, flag.Written.usage]) :=
  main_ends cl args hcl

/-- Witness for C2 as amended: `-system-id 12345` (the API key is missing, the
parser accepts) and `-bogus` (both credentials are missing, the parser
fails). -/
theorem missing_credentials_not_checked_witness :
    (((flag.FlagSet.Parse (CommandLine.get CommandLine_isSome) ["-system-id".toList, "12345".toList]).2 =
        flag.Ending.returned none ∧
      main ["-system-id".toList, "12345".toList] =
        { flags := (flag.FlagSet.Parse (CommandLine.get CommandLine_isSome) ["-system-id".toList, "12345".toList]).1,
          termination := Termination.mainReturned } ∧
      (main ["-system-id".toList, "12345".toList]).exitStatus = some 0 ∧ (main ["-system-id".toList, "12345".toList]).flags.output = []) ∨
    ((flag.FlagSet.Parse (CommandLine.get CommandLine_isSome) ["-system-id".toList, "12345".toList]).2 =
        flag.Ending.exit 0 ∧
      main ["-system-id".toList, "12345".toList] =
        { flags := (flag.FlagSet.Parse (CommandLine.get CommandLine_isSome) ["-system-id".toList, "12345".toList]).1,
          termination := Termination.osExit 0 } ∧
      (main ["-system-id".toList, "12345".toList]).exitStatus = some 0 ∧ (main ["-system-id".toList, "12345".toList]).flags.output = [flag.Written.usage]) ∨
    ((flag.FlagSet.Parse (CommandLine.get CommandLine_isSome) ["-system-id".toList, "12345".toList]).2 =
        flag.Ending.exit 2 ∧
      main ["-system-id".toList, "12345".toList] =
        { flags := (flag.FlagSet.Parse (CommandLine.get CommandLine_isSome) ["-system-id".toList, "12345".toList]).1,
          termination := Termination.osExit 2 } ∧
      (main ["-system-id".toList, "12345".toList]).exitStatus = some 2 ∧ ∃ err, err ≠ flag.Error.ErrHelp ∧
        (main ["-system-id".toList, "12345".toList]).flags.output = [flag.Written.message err, flag.Written.usage])) ∧
    (((flag.FlagSet.Parse (CommandLine.get CommandLine_isSome) ["-bogus".toList]).2 =
        flag.Ending.returned none ∧
      main ["-bogus".toList] =
        { flags := (flag.FlagSet.Parse (CommandLine.get CommandLine_isSome) ["-bogus".toList]).1,
          termination := Termination.mainReturned } ∧
      (main ["-bogus".toList]).exitStatus = some 0 ∧ (main ["-bogus".toList]).flags.output = []) ∨
    ((flag.FlagSet.Parse (CommandLine.get CommandLine_isSome) ["-bogus".toList]).2 =
        flag.Ending.exit 0 ∧
      main ["-bogus".toList] =
        { flags := (flag.FlagSet.Parse (CommandLine.get CommandLine_isSome) ["-bogus".toList]).1,
          termination := Termination.osExit 0 } ∧
      (main ["-bogus".toList]).exitStatus = some 0 ∧ (main ["-bogus".toList]).flags.output = [flag.Written.usage]) ∨
    ((flag.FlagSet.Parse (CommandLine.get CommandLine_isSome) ["-bogus".toList]).2 =
        flag.Ending.exit 2 ∧
      main ["-bogus".toList] =
        { flags := (flag.FlagSet.Parse (CommandLine.get CommandLine_isSome) ["-bogus".toList]).1,
          termination := Termination.osExit 2 } ∧
      (main ["-bogus".toList]).exitStatus = some 2 ∧ ∃ err, err ≠ flag.Error.ErrHelp ∧
        (main ["-bogus".toList]).flags.output = [flag.Written.message err, flag.Written.usage])) :=
  ⟨missing_credentials_not_checked (CommandLine.get CommandLine_isSome) ["-system-id".toList, "12345".toList]
      (by decide) (by decide),
    missing_credentials_not_checked (CommandLine.get CommandLine_isSome) ["-bogus".toList]
      (by decide) (by decide)⟩

/-- C3, counterexample: `-inverters 0` and `-inverters -3` are accepted: the
count is 0, respectively -3, and `main` returns normally, exit status 0. -/
theorem inverters_below_one_exit_zero :
    (inverterCount (main ["-inverters".toList, "0".toList]).flags = some 0 ∧
      (main ["-inverters".toList, "0".toList]).exitStatus = some 0) ∧
    (inverterCount (main ["-inverters".toList, "-3".toList]).flags = some (-3) ∧
      (main ["-inverters".toList, "-3".toList]).exitStatus = some 0) := by
  decide

/-- C3, as amended: a count below 1 is not an error.  Whenever the parser
accepts an argument list that leaves the inverter count at some `n < 1`,
`main` returns normally with exit status 0 and that count; and for every `n`
with `-2^63 ≤ n < 1` the list `-inverters n` is such a list. -/
theorem inverters_below_one_not_checked :
    (∀ (cl f : flag.FlagSet) (args : List GoString) (n : ℤ), CommandLine = some cl →
      flag.FlagSet.Parse cl args = (f, flag.Ending.returned none) →
      inverterCount f = some n → n < 1 →
      (main args).termination = Termination.mainReturned ∧
        (main args).exitStatus = some 0 ∧ inverterCount (main args).flags = some n) ∧
    (∀ n : ℤ, -(2 : ℤ) ^ 63 ≤ n → n < 1 →
      (main ["-inverters".toList, strconv.decimal n]).termination = Termination.mainReturned ∧
        (main ["-inverters".toList, strconv.decimal n]).exitStatus = some 0 ∧
        inverterCount (main ["-inverters".toList, strconv.decimal n]).flags = some n) := by
  constructor
  · intro cl f args n hcl hp hc _
    have h := main_of_Parse_returned cl f args hcl hp
    rw [h.1]
    exact ⟨rfl, rfl, hc⟩
  · intro n hlo hn
    rw [main_inverters_accepted _ n (strconv.ParseInt_decimal n hlo (by omega))]
    exact ⟨rfl, rfl, rfl⟩

/-- Witness for C3 as amended, at `-inverters -7`. -/
theorem inverters_below_one_not_checked_witness :
    ((main ["-inverters".toList, "-7".toList]).termination = Termination.mainReturned ∧
      (main ["-inverters".toList, "-7".toList]).exitStatus = some 0 ∧
      inverterCount (main ["-inverters".toList, "-7".toList]).flags = some (-7)) ∧
    ((main ["-inverters".toList, strconv.decimal (-7)]).termination =
        Termination.mainReturned ∧
      (main ["-inverters".toList, strconv.decimal (-7)]).exitStatus = some 0 ∧
      inverterCount (main ["-inverters".toList, strconv.decimal (-7)]).flags = some (-7)) :=
  ⟨inverters_below_one_not_checked.1 (CommandLine.get CommandLine_isSome)
      (flag.FlagSet.Parse (CommandLine.get CommandLine_isSome)
        ["-inverters".toList, "-7".toList]).1
      ["-inverters".toList, "-7".toList] (-7) (by decide) (by decide) (by decide) (by decide),
    inverters_below_one_not_checked.2 (-7) (by decide) (by decide)⟩

/-- C4: the program declares exactly the four flags `interface`, `system-id`,
`api-key` (strings, default empty) and `inverters` (integer, default 1), and
`main` only parses them: whenever the parser accepts the argument list, `main`
returns normally (exit status 0) in exactly the state the parser left, and
nothing has been written. -/
theorem main_only_parses_flags :
    CommandLine = some
      { parsed := false, actual := [],
        formal :=
          [{ Name := "interface".toList,
             Usage := "the IP address of the network interface used to bind to (optional)",
             Value := flag.Value.stringValue [] },
           { Name := "system-id".toList, Usage := "PVOutput system ID",
             Value := flag.Value.stringValue [] },
           { Name := "api-key".toList, Usage := "PVOutput API key",
             Value := flag.Value.stringValue [] },
           { Name := "inverters".toList,
             Usage := "number of inverters to fetch data from. If greater than 1, the data of the multiple inverters will be accumulated or averaged depending on type of data",
             Value := flag.Value.intValue 1 }],
        args := [], errorHandling := flag.ErrorHandling.ExitOnError, output := [] } ∧
    ∀ (cl f : flag.FlagSet) (args : List GoString), CommandLine = some cl →
      flag.FlagSet.Parse cl args = (f, flag.Ending.returned none) →
      main args = { flags := f, termination := Termination.mainReturned } ∧
        (main args).exitStatus = some 0 ∧ f.output = [] :=
  ⟨rfl, fun cl f args hcl hp => main_of_Parse_returned cl f args hcl hp⟩

/-- Witness for C4: the argument list `-system-id 12345 -api-key k -inverters 2`
is accepted, and `main` returns in the state the parser left. -/
theorem main_only_parses_flags_witness :
    main ["-system-id".toList, "12345".toList, "-api-key".toList, "k".toList,
        "-inverters".toList, "2".toList] =
      { flags := (main ["-system-id".toList, "12345".toList, "-api-key".toList, "k".toList,
          "-inverters".toList, "2".toList]).flags,
        termination := Termination.mainReturned } ∧
    (main ["-system-id".toList, "12345".toList, "-api-key".toList, "k".toList,
        "-inverters".toList, "2".toList]).exitStatus = some 0 ∧
    (main ["-system-id".toList, "12345".toList, "-api-key".toList, "k".toList,
        "-inverters".toList, "2".toList]).flags.output = [] :=
  main_only_parses_flags.2 (CommandLine.get CommandLine_isSome) _ _ (by decide) (by decide)

/-- C5: run with `-inverters 2`, the program ends as soon as the flags are
parsed: `main` returns with the count stored and nothing else done; no
reading is fetched and none is combined. -/
theorem main_two_inverters_only_parses :
    main ["-inverters".toList, "2".toList] =
      { flags :=
          { parsed := true, actual := ["inverters".toList],
            formal :=
              [{ Name := "interface".toList,
                 Usage := "the IP address of the network interface used to bind to (optional)",
                 Value := flag.Value.stringValue [] },
               { Name := "system-id".toList, Usage := "PVOutput system ID",
                 Value := flag.Value.stringValue [] },
               { Name := "api-key".toList, Usage := "PVOutput API key",
                 Value := flag.Value.stringValue [] },
               { Name := "inverters".toList,
                 Usage := "number of inverters to fetch data from. If greater than 1, the data of the multiple inverters will be accumulated or averaged depending on type of data",
                 Value := flag.Value.intValue 2 }],
            args := [], errorHandling := flag.ErrorHandling.ExitOnError, output := [] },
        termination := Termination.mainReturned } := by
  decide

/-- C6, counterexample: for the integer `n = 2^63` the argument list
`-inverters 9223372036854775808` does not set the count to `n`: the value is
out of the range of an `int`, and the program exits with status 2. -/
theorem inverters_out_of_range_rejected :
    strconv.decimal ((2 : ℤ) ^ 63) = "9223372036854775808".toList ∧
    (main ["-inverters".toList, strconv.decimal ((2 : ℤ) ^ 63)]).termination =
      Termination.osExit 2 ∧
    inverterCount (main ["-inverters".toList, strconv.decimal ((2 : ℤ) ^ 63)]).flags ≠
      some ((2 : ℤ) ^ 63) := by
  decide

/-- C6, as amended: for every integer `n` that fits an `int`
(`-2^63 ≤ n < 2^63`), `-inverters n` sets the inverter count to `n` and leaves
interface, system ID and API key empty; and for every string `s`, each of
`-interface s`, `-system-id s` and `-api-key s` sets that one value to `s` and
leaves the other three at their defaults.  In every case `main` returns. -/
theorem single_flag_changes_only_its_value :
    (∀ n : ℤ, -(2 : ℤ) ^ 63 ≤ n → n < (2 : ℤ) ^ 63 →
      (main ["-inverters".toList, strconv.decimal n]).termination = Termination.mainReturned ∧
      interfaceIP (main ["-inverters".toList, strconv.decimal n]).flags = some [] ∧
      systemID (main ["-inverters".toList, strconv.decimal n]).flags = some [] ∧
      apiKey (main ["-inverters".toList, strconv.decimal n]).flags = some [] ∧
      inverterCount (main ["-inverters".toList, strconv.decimal n]).flags = some n) ∧
    (∀ s : GoString,
      (main ["-interface".toList, s]).termination = Termination.mainReturned ∧
      interfaceIP (main ["-interface".toList, s]).flags = some s ∧
      systemID (main ["-interface".toList, s]).flags = some [] ∧
      apiKey (main ["-interface".toList, s]).flags = some [] ∧
      inverterCount (main ["-interface".toList, s]).flags = some 1) ∧
    (∀ s : GoString,
      (main ["-system-id".toList, s]).termination = Termination.mainReturned ∧
      interfaceIP (main ["-system-id".toList, s]).flags = some [] ∧
      systemID (main ["-system-id".toList, s]).flags = some s ∧
      apiKey (main ["-system-id".toList, s]).flags = some [] ∧
      inverterCount (main ["-system-id".toList, s]).flags = some 1) ∧
    (∀ s : GoString,
      (main ["-api-key".toList, s]).termination = Termination.mainReturned ∧
      interfaceIP (main ["-api-key".toList, s]).flags = some [] ∧
      systemID (main ["-api-key".toList, s]).flags = some [] ∧
      apiKey (main ["-api-key".toList, s]).flags = some s ∧
      inverterCount (main ["-api-key".toList, s]).flags = some 1) := by
  refine ⟨fun n hlo hhi => ?_, fun s => ?_, fun s => ?_, fun s => ?_⟩
  · rw [main_inverters_accepted _ n (strconv.ParseInt_decimal n hlo hhi)]
    exact ⟨rfl, rfl, rfl, rfl, rfl⟩
  · rw [main_interface]
    exact ⟨rfl, rfl, rfl, rfl, rfl⟩
  · rw [main_systemID]
    exact ⟨rfl, rfl, rfl, rfl, rfl⟩
  · rw [main_apiKey]
    exact ⟨rfl, rfl, rfl, rfl, rfl⟩

/-- Witness for C6 as amended, at `n = 42`. -/
theorem single_flag_changes_only_its_value_witness :
    (main ["-inverters".toList, strconv.decimal 42]).termination = Termination.mainReturned ∧
    interfaceIP (main ["-inverters".toList, strconv.decimal 42]).flags = some [] ∧
    systemID (main ["-inverters".toList, strconv.decimal 42]).flags = some [] ∧
    apiKey (main ["-inverters".toList, strconv.decimal 42]).flags = some [] ∧
    inverterCount (main ["-inverters".toList, strconv.decimal 42]).flags = some 42 :=
  single_flag_changes_only_its_value.1 42 (by decide) (by decide)

/-- C7, counterexample: `-inverters 0x10` gives a value that is not a decimal
integer, yet it is accepted, as 16, and `main` returns with exit status 0;
and `-h` names a flag that is not declared, yet the exit status is 0. -/
theorem hex_value_and_help_exit_zero :
    ((main ["-inverters".toList, "0x10".toList]).termination = Termination.mainReturned ∧
      inverterCount (main ["-inverters".toList, "0x10".toList]).flags = some 16 ∧
      (main ["-inverters".toList, "0x10".toList]).exitStatus = some 0) ∧
    ((main ["-h".toList]).termination = Termination.osExit 0 ∧
      (main ["-h".toList]).exitStatus = some 0) := by
  decide

/-- C7, as amended: whenever the parser, having set `k ≥ 0` flags from the
arguments before, comes to `-inverters` followed by a value that
`strconv.ParseInt(v, 0, 64)` rejects, or to `-inverters=v` with such a value,
or to `-nm`, `--nm`, `-nm=value` or `--nm=value` with a name `nm` that is none
of the four declared ones and neither `help` nor `h`, the program ends in
`os.Exit(2)`: exit status 2, whatever arguments follow.  Among the values
that `ParseInt` rejects are the empty one, every value that after its
optional sign does not start with `0` and has a byte that is neither a
decimal digit nor an underscore, and every value with a byte that is not an
ASCII letter, digit, underscore or sign. -/
theorem rejected_flag_exits_two :
    (∀ (cl g : flag.FlagSet) (args : List GoString) (k : Nat) (v : GoString)
      (rest : List GoString), CommandLine = some cl →
      flag.FlagSet.parseSeen k { cl with parsed := true, args := args } = some g →
      (g.args = "-inverters".toList :: v :: rest ∨
        g.args = ("-inverters=".toList ++ v) :: rest) →
      (strconv.ParseInt v 0 strconv.IntSize).2 ≠ none →
      (main args).termination = Termination.osExit 2 ∧ (main args).exitStatus = some 2) ∧
    (∀ (cl g : flag.FlagSet) (args : List GoString) (k : Nat) (dashes nm tail : GoString)
      (rest : List GoString), CommandLine = some cl →
      flag.FlagSet.parseSeen k { cl with parsed := true, args := args } = some g →
      g.args = (dashes ++ nm ++ tail) :: rest →
      (dashes = ['-'] ∨ dashes = ['-', '-']) →
      nm ≠ [] → nm.head? ≠ some '-' → '=' ∉ nm →
      (tail = [] ∨ ∃ value, tail = '=' :: value) →
      nm ∉ ["interface".toList, "system-id".toList, "api-key".toList, "inverters".toList,
        "help".toList, "h".toList] →
      (main args).termination = Termination.osExit 2 ∧ (main args).exitStatus = some 2) ∧
    (∀ v : GoString,
      (v = [] ∨ strconv.notDecimal v = true ∨ ∃ c ∈ v, strconv.numeralByte c = false) →
      (strconv.ParseInt v 0 strconv.IntSize).2 ≠ none) := by
  refine ⟨?_, ?_, ?_⟩
  · intro cl g args k v rest hcl hk hargs hv
    rw [CommandLine_eq, Option.some.injEq] at hcl
    subst hcl
    obtain ⟨_, ⟨a, b, c, n, hg⟩, _, _⟩ := flag.parseSeen_loop k _ g [] [] [] 1 rfl hk
    obtain ⟨p, act, formal, gargs, eh, out⟩ := g
    simp only at hg hargs
    subst hg
    cases hp : strconv.ParseInt v 0 strconv.IntSize with
    | mk m e =>
      cases e with
      | none => rw [hp] at hv; exact absurd rfl hv
      | some ne =>
        rcases hargs with rfl | rfl
        · rw [main_of_parseSeen_failed args k _ _ _ hk
            (flag.parseOne_inverters_rejected p act a b c n m v rest eh out ne hp) (by simp)]
          exact ⟨rfl, rfl⟩
        · rw [main_of_parseSeen_failed args k _ _ _ hk
            (flag.parseOne_inverters_eq_rejected p act a b c n m v rest eh out ne hp) (by simp)]
          exact ⟨rfl, rfl⟩
  · intro cl g args k dashes nm tail rest hcl hk hargs hd hnil hminus heq htail hnm
    rw [CommandLine_eq, Option.some.injEq] at hcl
    subst hcl
    obtain ⟨_, ⟨a, b, c, n, hg⟩, _, _⟩ := flag.parseSeen_loop k _ g [] [] [] 1 rfl hk
    obtain ⟨p, act, formal, gargs, eh, out⟩ := g
    simp only at hg hargs
    subst hg hargs
    simp only [List.mem_cons, List.mem_singleton, List.not_mem_nil, or_false, not_or] at hnm
    obtain ⟨h1, h2, h3, h4, h5, h6⟩ := hnm
    have hone : ∀ two : Bool, dashes = (if two then ['-', '-'] else ['-']) →
        (main args).termination = Termination.osExit 2 ∧ (main args).exitStatus = some 2 := by
      intro two hdash
      subst hdash
      rw [main_of_parseSeen_failed args k _ _ _ hk
        (flag.parseOne_undeclared p act a b c n rest eh out nm tail two hnil hminus heq htail
          h1 h2 h3 h4 h5 h6) (by simp)]
      exact ⟨rfl, rfl⟩
    rcases hd with rfl | rfl
    · exact hone false rfl
    · exact hone true rfl
  · rintro v (h | h | h)
    · exact strconv.ParseInt_not_numeral v (Or.inl h)
    · exact strconv.ParseInt_not_decimal v h
    · exact strconv.ParseInt_not_numeral v (Or.inr h)

/-- Witness for C7 as amended: in `-system-id 12345 -inverters abc -api-key k` the
parser sets one flag and comes to `-inverters abc`; in `--verbose=1 -inverters 2`
it comes to `--verbose=1` at once; and `1.5` is a value that `ParseInt` rejects. -/
theorem rejected_flag_exits_two_witness :
    ((main ["-system-id".toList, "12345".toList, "-inverters".toList, "abc".toList,
        "-api-key".toList, "k".toList]).termination = Termination.osExit 2 ∧
      (main ["-system-id".toList, "12345".toList, "-inverters".toList, "abc".toList,
        "-api-key".toList, "k".toList]).exitStatus = some 2) ∧
    ((main ["--verbose=1".toList, "-inverters".toList, "2".toList]).termination =
        Termination.osExit 2 ∧
      (main ["--verbose=1".toList, "-inverters".toList, "2".toList]).exitStatus = some 2) ∧
    (strconv.ParseInt "1.5".toList 0 strconv.IntSize).2 ≠ none :=
  ⟨rejected_flag_exits_two.1 (CommandLine.get CommandLine_isSome)
      ⟨true, ["system-id".toList], declared [] "12345".toList [] 1,
        ["-inverters".toList, "abc".toList, "-api-key".toList, "k".toList],
        flag.ErrorHandling.ExitOnError, []⟩
      ["-system-id".toList, "12345".toList, "-inverters".toList, "abc".toList,
        "-api-key".toList, "k".toList] 1 "abc".toList ["-api-key".toList, "k".toList]
      (by decide) (by decide) (Or.inl (by decide)) (by decide),
    rejected_flag_exits_two.2.1 (CommandLine.get CommandLine_isSome)
      ⟨true, [], declared [] [] [] 1,
        ["--verbose=1".toList, "-inverters".toList, "2".toList],
        flag.ErrorHandling.ExitOnError, []⟩
      ["--verbose=1".toList, "-inverters".toList, "2".toList] 0
      ['-', '-'] "verbose".toList "=1".toList ["-inverters".toList, "2".toList]
      (by decide) (by decide) (by decide) (by decide) (by decide) (by decide) (by decide)
      (Or.inr ⟨"1".toList, rfl⟩) (by decide),
    rejected_flag_exits_two.2.2 "1.5".toList (Or.inr (Or.inl (by decide)))⟩

end Solar
